import Mathlib

/-!
Formal model of the CollabBoard collaborative-whiteboard backend.

This file is a shallow embedding, in Lean 4, of the parts of the code that
the specification's quantified invariants talk about:

* the agent executor's tool-call processing (`processToolCall`, the
  known-id guard `isKnownId`, and the pending-write plan) from
  `functions/src/agent.ts`;
* the agent's auto-fit pass over frames (`fitFramesToContent`, with its
  two-phase child assignment and the frame-expansion loop);
* the client mutation API (`addObject` / `updateObject` from
  `src/hooks/useFirestore.ts`) together with a small model of the store's
  `updateDoc` / `setDoc(merge)` semantics;
* the presence tracker's snapshot filter and throttled cursor writer
  (`usePresence`);
* the connector renderer's endpoint-resolution logic (`ConnectorShape`).

Numbers are modelled as rationals (the claims under study are about
order, min/max and affine arithmetic, which float evaluation performs
exactly on the integral inputs involved).  Server timestamps are an
opaque field value.  Tool inputs are modelled as schema-conformant:
fields that the JSON schema marks `required` are present; schema-optional
fields are `Option` and the source's `??` / `||` defaults are translated
exactly.
-/

/-- A Firestore-style field value as it appears in the write plans built
by the code under study. -/
inductive FieldValue where
  | num (q : ℚ)
  | str (s : String)
  | boolVal (b : Bool)
  | serverTimestamp
  | nums (l : List ℚ)
  | styleVal (lineStyle : String) (arrowHead : Bool)
  deriving DecidableEq

/-- A document's field set, ordered as the JS object literal that built it. -/
abbrev Fields := List (String × FieldValue)

/-- Read a field (first occurrence wins, as in a JS object). -/
def getField (f : Fields) (k : String) : Option FieldValue :=
  (f.find? (fun p => p.1 == k)).map (·.2)

/-- JS object-key assignment: replace the value in place if the key exists,
append it otherwise. -/
def setField : Fields → String → FieldValue → Fields
  | [], k, v => [(k, v)]
  | (k', v') :: rest, k, v =>
      if k' == k then (k, v) :: rest else (k', v') :: setField rest k v

/-- Whether a field set carries the given key. -/
def hasField (f : Fields) (k : String) : Bool :=
  (getField f k).isSome

/-- Numeric projection of a field (`d.x as number` on a number field). -/
def getNum (f : Fields) (k : String) : Option ℚ :=
  match getField f k with
  | some (.num q) => some q
  | _ => none

/-- String projection of a field. -/
def getStr (f : Fields) (k : String) : Option String :=
  match getField f k with
  | some (.str s) => some s
  | _ => none

/-- JS `x || default` on an optional string: `undefined`, `null` and the
empty string all fall through to the default. -/
def strOr (o : Option String) (d : String) : String :=
  match o with
  | some s => if s = "" then d else s
  | none => d

/-- A connector's `style` record; both keys may be absent. -/
structure ConnStyle where
  lineStyle : Option String
  arrowHead : Option Bool
  deriving DecidableEq

/-- A board object as delivered in the agent request's `boardState`
(and as held by the client's object list). -/
structure BoardStateObject where
  id : String
  type : String
  x : ℚ
  y : ℚ
  width : ℚ
  height : ℚ
  text : Option String := none
  color : String := ""
  radius : Option ℚ := none
  connectedFrom : Option String := none
  connectedTo : Option String := none
  style : Option ConnStyle := none
  deriving DecidableEq

/-- One entry of the agent's pending write plan (`PendingWrite` in
`agent.ts`): a `set`, `update` or `delete` against a document path. -/
inductive WriteType where
  | set | update | delete
  deriving DecidableEq

structure PendingWrite where
  type : WriteType
  path : String
  data : Option Fields := none
  deriving DecidableEq

/-- `w.path.split("/").pop()` — the document id at the end of a path. -/
def pathId (p : String) : String :=
  (p.splitOn "/").getLastD ""

/-- The agent's tool surface, with schema-required fields plain and
schema-optional fields `Option`. -/
inductive ToolCall where
  | createStickyNote (text : String) (x y : ℚ) (color : String)
  | createText (text : String) (x y : ℚ) (color : Option String)
      (fontSize : Option ℚ)
  | createShape (shapeType : String) (x y width height : ℚ) (color : String)
      (text : Option String)
  | createFrame (title : String) (x y width height : ℚ)
  | createConnector (fromId toId : String) (style : Option String)
  | moveObject (objectId : String) (x y : ℚ)
  | resizeObject (objectId : String) (width height : ℚ)
  | updateText (objectId : String) (newText : String)
  | changeColor (objectId : String) (color : String)
  | updateConnectorStyle (objectId : String) (lineStyle : Option String)
      (arrowHead : Option Bool)
  | deleteObject (objectId : String)
  | getBoardState
  deriving DecidableEq

/-- The action record the agent reports for each tool call. -/
structure ActionTaken where
  tool : String
  objectId : Option String := none
  deriving DecidableEq

/-- Result of processing one tool call: the reported action, the
tool_result message sent back to the model, and the optional write. -/
structure ToolOutcome where
  action : ActionTaken
  resultMessage : String
  write : Option PendingWrite := none
  deriving DecidableEq

/-- `isKnownId` from `processToolCall`: the id occurs in the board
snapshot or was created earlier in this run. -/
def isKnownId (boardState : List BoardStateObject) (createdIds : List String)
    (id : String) : Bool :=
  boardState.any (fun o => o.id == id) || createdIds.contains id

/-- `processToolCall` from `agent.ts`.  `freshId` stands for the value
`generateId()` returns in the create branches (id generation is random in
the source and is supplied here as an argument). -/
def processToolCall (tc : ToolCall) (boardId userId : String)
    (boardState : List BoardStateObject) (createdIds : List String)
    (freshId : String) : ToolOutcome :=
  let timestamp : FieldValue := .serverTimestamp
  let basePath := "boards/" ++ boardId ++ "/objects"
  match tc with
  | .createStickyNote text x y color =>
      { action := { tool := "createStickyNote", objectId := some freshId }
        resultMessage := "Created sticky note with id \"" ++ freshId ++ "\""
        write := some
          { type := .set
            path := basePath ++ "/" ++ freshId
            data := some
              [("type", .str "sticky"), ("x", .num x), ("y", .num y),
               ("width", .num 200), ("height", .num 200),
               ("rotation", .num 0), ("text", .str text),
               ("color", .str color), ("zIndex", .num 0),
               ("lastEditedBy", .str userId), ("updatedAt", timestamp)] } }
  | .createText text x y color fontSize =>
      { action := { tool := "createText", objectId := some freshId }
        resultMessage := "Created text element with id \"" ++ freshId ++ "\""
        write := some
          { type := .set
            path := basePath ++ "/" ++ freshId
            data := some
              [("type", .str "text"), ("x", .num x), ("y", .num y),
               ("width", .num 200), ("height", .num 30),
               ("rotation", .num 0), ("text", .str text),
               ("fontSize", .num (fontSize.getD 16)),
               ("color", .str (color.getD "#374151")), ("zIndex", .num 0),
               ("lastEditedBy", .str userId), ("updatedAt", timestamp)] } }
  | .createShape shapeType x y width height color text =>
      let base : Fields :=
        [("type", .str shapeType), ("x", .num x), ("y", .num y),
         ("width", .num width), ("height", .num height),
         ("rotation", .num 0), ("text", .str (text.getD "")),
         ("color", .str color), ("zIndex", .num 0),
         ("lastEditedBy", .str userId), ("updatedAt", timestamp)]
      let d1 := if shapeType = "line" then
          setField base "points" (.nums [0, 0, width, height]) else base
      let d2 := if shapeType = "circle" then
          setField d1 "radius" (.num (min width height / 2)) else d1
      { action := { tool := "createShape", objectId := some freshId }
        resultMessage :=
          "Created " ++ shapeType ++ " shape with id \"" ++ freshId ++ "\""
        write := some { type := .set, path := basePath ++ "/" ++ freshId
                        data := some d2 } }
  | .createFrame title x y width height =>
      { action := { tool := "createFrame", objectId := some freshId }
        resultMessage :=
          "Created frame \"" ++ title ++ "\" with id \"" ++ freshId ++ "\""
        write := some
          { type := .set
            path := basePath ++ "/" ++ freshId
            data := some
              [("type", .str "frame"), ("x", .num x), ("y", .num y),
               ("width", .num width), ("height", .num height),
               ("rotation", .num 0), ("text", .str title),
               ("color", .str "#e5e7eb"), ("zIndex", .num (-1)),
               ("lastEditedBy", .str userId), ("updatedAt", timestamp)] } }
  | .createConnector fromId toId style =>
      if !isKnownId boardState createdIds fromId then
        { action := { tool := "createConnector" }
          resultMessage := "Error: source object \"" ++ fromId ++
            "\" not found. Use an ID from the board state or from a previous create tool result." }
      else if !isKnownId boardState createdIds toId then
        { action := { tool := "createConnector" }
          resultMessage := "Error: target object \"" ++ toId ++
            "\" not found. Use an ID from the board state or from a previous create tool result." }
      else
        { action := { tool := "createConnector", objectId := some freshId }
          resultMessage := "Created connector from \"" ++ fromId ++
            "\" to \"" ++ toId ++ "\" with id \"" ++ freshId ++ "\""
          write := some
            { type := .set
              path := basePath ++ "/" ++ freshId
              data := some
                [("type", .str "connector"), ("x", .num 0), ("y", .num 0),
                 ("width", .num 0), ("height", .num 0), ("rotation", .num 0),
                 ("color", .str "#374151"),
                 ("connectedFrom", .str fromId), ("connectedTo", .str toId),
                 ("style", .styleVal (strOr style "solid") true),
                 ("zIndex", .num 0), ("lastEditedBy", .str userId),
                 ("updatedAt", timestamp)] } }
  | .moveObject oid x y =>
      if !isKnownId boardState createdIds oid then
        { action := { tool := "moveObject" }
          resultMessage := "Error: object \"" ++ oid ++
            "\" not found. Use an ID from the board state or from a previous create tool result." }
      else
        { action := { tool := "moveObject" }
          resultMessage := "Moved object \"" ++ oid ++ "\""
          write := some
            { type := .update
              path := basePath ++ "/" ++ oid
              data := some
                [("x", .num x), ("y", .num y),
                 ("lastEditedBy", .str userId), ("updatedAt", timestamp)] } }
  | .resizeObject oid width height =>
      if !isKnownId boardState createdIds oid then
        { action := { tool := "resizeObject" }
          resultMessage := "Error: object \"" ++ oid ++
            "\" not found. Use an ID from the board state or from a previous create tool result." }
      else
        { action := { tool := "resizeObject" }
          resultMessage := "Resized object \"" ++ oid ++ "\""
          write := some
            { type := .update
              path := basePath ++ "/" ++ oid
              data := some
                [("width", .num width), ("height", .num height),
                 ("lastEditedBy", .str userId), ("updatedAt", timestamp)] } }
  | .updateText oid newText =>
      if !isKnownId boardState createdIds oid then
        { action := { tool := "updateText" }
          resultMessage := "Error: object \"" ++ oid ++
            "\" not found. Use an ID from the board state or from a previous create tool result." }
      else
        { action := { tool := "updateText" }
          resultMessage := "Updated text of \"" ++ oid ++ "\""
          write := some
            { type := .update
              path := basePath ++ "/" ++ oid
              data := some
                [("text", .str newText),
                 ("lastEditedBy", .str userId), ("updatedAt", timestamp)] } }
  | .changeColor oid color =>
      if !isKnownId boardState createdIds oid then
        { action := { tool := "changeColor" }
          resultMessage := "Error: object \"" ++ oid ++
            "\" not found. Use an ID from the board state or from a previous create tool result." }
      else
        { action := { tool := "changeColor" }
          resultMessage := "Changed color of \"" ++ oid ++ "\""
          write := some
            { type := .update
              path := basePath ++ "/" ++ oid
              data := some
                [("color", .str color),
                 ("lastEditedBy", .str userId), ("updatedAt", timestamp)] } }
  | .updateConnectorStyle oid lineStyle arrowHead =>
      if !isKnownId boardState createdIds oid then
        { action := { tool := "updateConnectorStyle" }
          resultMessage := "Error: connector \"" ++ oid ++
            "\" not found. Use the ID returned by createConnector, not a made-up name." }
      else
        let existingObj := boardState.find? (fun o => o.id == oid)
        let existingStyle :=
          (existingObj.bind (·.style)).getD { lineStyle := none, arrowHead := none }
        let newLineStyle := lineStyle.getD (existingStyle.lineStyle.getD "solid")
        let newArrowHead := arrowHead.getD (existingStyle.arrowHead.getD true)
        { action := { tool := "updateConnectorStyle" }
          resultMessage := "Updated connector \"" ++ oid ++ "\" style"
          write := some
            { type := .update
              path := basePath ++ "/" ++ oid
              data := some
                [("style", .styleVal newLineStyle newArrowHead),
                 ("lastEditedBy", .str userId), ("updatedAt", timestamp)] } }
  | .deleteObject oid =>
      if !isKnownId boardState createdIds oid then
        { action := { tool := "deleteObject" }
          resultMessage := "Error: object \"" ++ oid ++
            "\" not found. Use an ID from the board state or from a previous create tool result." }
      else
        { action := { tool := "deleteObject" }
          resultMessage := "Deleted object \"" ++ oid ++ "\""
          write := some { type := .delete, path := basePath ++ "/" ++ oid } }
  | .getBoardState =>
      { action := { tool := "getBoardState" }
        resultMessage := "(board state)" }

/-- The object ids a tool call references as *existing* objects (the
ids the known-id guard is applied to). -/
def modTargets : ToolCall → List String
  | .createConnector fromId toId _ => [fromId, toId]
  | .moveObject oid _ _ => [oid]
  | .resizeObject oid _ _ => [oid]
  | .updateText oid _ => [oid]
  | .changeColor oid _ => [oid]
  | .updateConnectorStyle oid _ _ => [oid]
  | .deleteObject oid => [oid]
  | _ => []

/-- Claim C1: a tool call that references an object id that is neither in
the board snapshot nor among the ids created earlier in the same run
appends no write to the pending plan, and its tool_result is an error
string.  This covers `moveObject`, `resizeObject`, `updateText`,
`changeColor`, `updateConnectorStyle`, `deleteObject` and both endpoints
of `createConnector`. -/
theorem claim_C1_unknown_id_no_write (tc : ToolCall) (boardId userId : String)
    (boardState : List BoardStateObject) (createdIds : List String)
    (freshId : String)
    (h : ∃ i ∈ modTargets tc, isKnownId boardState createdIds i = false) :
    (processToolCall tc boardId userId boardState createdIds freshId).write
        = none ∧
    ∃ s, (processToolCall tc boardId userId boardState createdIds
        freshId).resultMessage = "Error: " ++ s := by
  obtain ⟨i, hi, hk⟩ := h
  cases tc <;> simp [modTargets] at hi
  case createConnector fromId toId style =>
    rcases hi with hi | hi
    · subst hi
      refine ⟨?_, ?_⟩
      · simp [processToolCall, hk]
      · refine ⟨"source object \"" ++ (i ++
          "\" not found. Use an ID from the board state or from a previous create tool result."), ?_⟩
        simp [processToolCall, hk]
        rw [← String.append_assoc, ← String.append_assoc]
        rfl
    · subst hi
      by_cases hf : isKnownId boardState createdIds fromId = true
      · refine ⟨?_, ?_⟩
        · simp [processToolCall, hf, hk]
        · refine ⟨"target object \"" ++ (i ++
            "\" not found. Use an ID from the board state or from a previous create tool result."), ?_⟩
          simp [processToolCall, hf, hk]
          rw [← String.append_assoc, ← String.append_assoc]
          rfl
      · rw [Bool.not_eq_true] at hf
        refine ⟨?_, ?_⟩
        · simp [processToolCall, hf]
        · refine ⟨"source object \"" ++ (fromId ++
            "\" not found. Use an ID from the board state or from a previous create tool result."), ?_⟩
          simp [processToolCall, hf]
          rw [← String.append_assoc, ← String.append_assoc]
          rfl
  case moveObject oid x y =>
    subst hi
    refine ⟨by simp [processToolCall, hk], ⟨"object \"" ++ (i ++
      "\" not found. Use an ID from the board state or from a previous create tool result."), ?_⟩⟩
    simp [processToolCall, hk]
    rw [← String.append_assoc, ← String.append_assoc]
    rfl
  case resizeObject oid width height =>
    subst hi
    refine ⟨by simp [processToolCall, hk], ⟨"object \"" ++ (i ++
      "\" not found. Use an ID from the board state or from a previous create tool result."), ?_⟩⟩
    simp [processToolCall, hk]
    rw [← String.append_assoc, ← String.append_assoc]
    rfl
  case updateText oid newText =>
    subst hi
    refine ⟨by simp [processToolCall, hk], ⟨"object \"" ++ (i ++
      "\" not found. Use an ID from the board state or from a previous create tool result."), ?_⟩⟩
    simp [processToolCall, hk]
    rw [← String.append_assoc, ← String.append_assoc]
    rfl
  case changeColor oid color =>
    subst hi
    refine ⟨by simp [processToolCall, hk], ⟨"object \"" ++ (i ++
      "\" not found. Use an ID from the board state or from a previous create tool result."), ?_⟩⟩
    simp [processToolCall, hk]
    rw [← String.append_assoc, ← String.append_assoc]
    rfl
  case updateConnectorStyle oid lineStyle arrowHead =>
    subst hi
    refine ⟨by simp [processToolCall, hk], ⟨"connector \"" ++ (i ++
      "\" not found. Use the ID returned by createConnector, not a made-up name."), ?_⟩⟩
    simp [processToolCall, hk]
    rw [← String.append_assoc, ← String.append_assoc]
    rfl
  case deleteObject oid =>
    subst hi
    refine ⟨by simp [processToolCall, hk], ⟨"object \"" ++ (i ++
      "\" not found. Use an ID from the board state or from a previous create tool result."), ?_⟩⟩
    simp [processToolCall, hk]
    rw [← String.append_assoc, ← String.append_assoc]
    rfl

/-- Claim C1 witness: `moveObject` on a fabricated id against an empty
board produces no write. -/
theorem claim_C1_unknown_id_no_write_witness :
    (∃ i ∈ modTargets (.moveObject "ghost" 1 2),
        isKnownId [] [] i = false) ∧
    ((processToolCall (.moveObject "ghost" 1 2) "b" "u" [] [] "f").write
        = none ∧
     ∃ s, (processToolCall (.moveObject "ghost" 1 2) "b" "u" [] []
        "f").resultMessage = "Error: " ++ s) :=
  ⟨⟨"ghost", by decide, by decide⟩,
   claim_C1_unknown_id_no_write (.moveObject "ghost" 1 2) "b" "u" [] [] "f"
     ⟨"ghost", by decide, by decide⟩⟩

/-- Claim C10: every write produced by the agent's `createStickyNote`
tool has `width = 200`, `height = 200`, `rotation = 0` and `zIndex = 0`,
regardless of the tool input. -/
theorem claim_C10_sticky_fixed_size (text : String) (x y : ℚ)
    (color boardId userId freshId : String)
    (boardState : List BoardStateObject) (createdIds : List String) :
    ∃ w : PendingWrite,
      (processToolCall (.createStickyNote text x y color) boardId userId
          boardState createdIds freshId).write = some w ∧
      getField (w.data.getD []) "width" = some (.num 200) ∧
      getField (w.data.getD []) "height" = some (.num 200) ∧
      getField (w.data.getD []) "rotation" = some (.num 0) ∧
      getField (w.data.getD []) "zIndex" = some (.num 0) :=
  ⟨_, rfl, rfl, rfl, rfl, rfl⟩

/-! ### The auto-fit pass (`fitFramesToContent`)

JS `Map` is insertion-ordered; it is modelled as an association list where
`alSet` updates in place or appends, and `alDel` removes the entry. -/

def alSet {α : Type} : List (String × α) → String → α → List (String × α)
  | [], k, v => [(k, v)]
  | (k', v') :: rest, k, v =>
      if k' = k then (k, v) :: rest else (k', v') :: alSet rest k v

def alGet {α : Type} (m : List (String × α)) (k : String) : Option α :=
  (m.find? (fun p => p.1 == k)).map (·.2)

def alDel {α : Type} (m : List (String × α)) (k : String) : List (String × α) :=
  m.filter (fun p => !(p.1 == k))

/-- The `ObjInfo` record `fitFramesToContent` keeps per object. -/
structure ObjInfo where
  type : String
  x : ℚ
  y : ℚ
  width : ℚ
  height : ℚ
  radius : Option ℚ := none
  deriving DecidableEq

/-- An `{id, ...obj}` entry of the `frames` / `potentialChildren` arrays. -/
structure ObjEntry where
  id : String
  info : ObjInfo
  deriving DecidableEq

/-- Merging a pending write's data over the object info already in the
map (`(d.f as T) ?? existing?.f ?? default`). -/
def mergeWriteInfo (existing : Option ObjInfo) (d : Fields) : ObjInfo :=
  { type := (getStr d "type").getD ((existing.map (·.type)).getD "")
    x := (getNum d "x").getD ((existing.map (·.x)).getD 0)
    y := (getNum d "y").getD ((existing.map (·.y)).getD 0)
    width := (getNum d "width").getD ((existing.map (·.width)).getD 0)
    height := (getNum d "height").getD ((existing.map (·.height)).getD 0)
    radius := (getNum d "radius").or (existing.bind (·.radius)) }

/-- The object map seeded from the request's board snapshot. -/
def objMapOfState (existingState : List BoardStateObject) :
    List (String × ObjInfo) :=
  existingState.foldl (fun m obj => alSet m obj.id
    { type := obj.type, x := obj.x, y := obj.y,
      width := obj.width, height := obj.height, radius := obj.radius }) []

/-- Folding one indexed pending write into `(objMap, writeMap)`. -/
def applyWriteToMaps (p : List (String × ObjInfo) × List (String × Nat))
    (iw : Nat × PendingWrite) : List (String × ObjInfo) × List (String × Nat) :=
  let id := pathId iw.2.path
  if iw.2.type = .delete then (alDel p.1 id, p.2)
  else
    (alSet p.1 id (mergeWriteInfo (alGet p.1 id) (iw.2.data.getD [])),
     alSet p.2 id iw.1)

/-- The merged (existing ∪ pending) object map and the id → write-index
map, as built by the first loop of `fitFramesToContent`. -/
def buildMaps (existingState : List BoardStateObject)
    (writes : List PendingWrite) :
    List (String × ObjInfo) × List (String × Nat) :=
  writes.enum.foldl applyWriteToMaps (objMapOfState existingState, [])

/-- The `frames` array: non-connector entries of type `"frame"`, in map
order. -/
def framesOf (m : List (String × ObjInfo)) : List ObjEntry :=
  (m.filter (fun p => p.2.type == "frame")).map (fun p => ⟨p.1, p.2⟩)

/-- The `potentialChildren` array: every non-connector entry (frames
included), in map order. -/
def potentialChildrenOf (m : List (String × ObjInfo)) : List ObjEntry :=
  (m.filter (fun p => !(p.2.type == "connector"))).map (fun p => ⟨p.1, p.2⟩)

structure BBox where
  left : ℚ
  top : ℚ
  right : ℚ
  bottom : ℚ
  deriving DecidableEq

/-- `getBBox`: world bounding box; a circle's `(x,y)` is its center and
is offset by the radius (defaulting to `width / 2`). -/
def getBBox (o : ObjInfo) : BBox :=
  if o.type = "circle" then
    let r := o.radius.getD (o.width / 2)
    ⟨o.x - r, o.y - r, o.x + r, o.y + r⟩
  else
    ⟨o.x, o.y, o.x + o.width, o.y + o.height⟩

/-- Phase 1's containment test on the child's bbox top-left corner:
half-open on each axis (`left ∈ [fx, fx+fw)` and `top ∈ [fy, fy+fh)`). -/
def containsTL (f : ObjEntry) (cb : BBox) : Bool :=
  decide (f.info.x ≤ cb.left) && decide (cb.left < f.info.x + f.info.width) &&
  decide (f.info.y ≤ cb.top) && decide (cb.top < f.info.y + f.info.height)

/-- The spec's words, for comparison: the rectangle *strictly contains*
the corner, i.e. the corner lies in the open interior. -/
def strictlyContainsTL (f : ObjEntry) (cb : BBox) : Bool :=
  decide (f.info.x < cb.left) && decide (cb.left < f.info.x + f.info.width) &&
  decide (f.info.y < cb.top) && decide (cb.top < f.info.y + f.info.height)

def areaOf (f : ObjEntry) : ℚ :=
  f.info.width * f.info.height

/-- One step of Phase 1's best-frame scan (`bestArea` starts at
`Infinity`, which the `none` accumulator stands for). -/
def phase1Step (c : ObjEntry) (best : Option (String × ℚ)) (f : ObjEntry) :
    Option (String × ℚ) :=
  if f.id = c.id then best
  else if containsTL f (getBBox c.info) then
    match best with
    | none => some (f.id, areaOf f)
    | some (bid, ba) =>
        if areaOf f < ba then some (f.id, areaOf f) else some (bid, ba)
  else best

/-- Phase 1's scan over all frames for one child. -/
def phase1Scan (frames : List ObjEntry) (c : ObjEntry) :
    Option (String × ℚ) :=
  frames.foldl (phase1Step c) none

/-- The per-frame children lists (`frameChildrenMap`); pushing appends to
the list of the first entry with the given frame id. -/
abbrev ChildrenMap := List (String × List ObjEntry)

def pushChild : ChildrenMap → String → ObjEntry → ChildrenMap
  | [], _, _ => []
  | (k, l) :: rest, fid, c =>
      if k = fid then (k, l ++ [c]) :: rest
      else (k, l) :: pushChild rest fid c

/-- Phase 1: assign each potential child to the smallest frame whose
rectangle contains (half-open) its bbox top-left; returns the children
map and the `assigned` id set.  `if (bestFrameId)` is JS truthiness, so
an empty-string frame id never assigns. -/
def phase1Assign (frames : List ObjEntry) (cs : List ObjEntry) :
    ChildrenMap × List String :=
  cs.foldl (fun p c =>
    match phase1Scan frames c with
    | some (bid, _) =>
        if bid ≠ "" then (pushChild p.1 bid c, p.2 ++ [c.id]) else p
    | none => p)
    (frames.map (fun f => (f.id, ([] : List ObjEntry))), [])

/-- Phase 2's axis-wise gaps between a child bbox and a frame. -/
def gapX (f : ObjEntry) (cb : BBox) : ℚ :=
  max 0 (max (f.info.x - cb.right) (cb.left - (f.info.x + f.info.width)))

def gapY (f : ObjEntry) (cb : BBox) : ℚ :=
  max 0 (max (f.info.y - cb.bottom) (cb.top - (f.info.y + f.info.height)))

/-- One step of Phase 2's nearest-frame scan. -/
def phase2Step (cb : BBox) (cw ch : ℚ) (best : Option (String × ℚ))
    (f : ObjEntry) : Option (String × ℚ) :=
  let gx := gapX f cb
  let gy := gapY f cb
  if gx > cw ∨ gy > ch then best
  else
    match best with
    | none => some (f.id, gx + gy)
    | some (bid, bd) =>
        if gx + gy < bd then some (f.id, gx + gy) else some (bid, bd)

def phase2Scan (frames : List ObjEntry) (c : ObjEntry) :
    Option (String × ℚ) :=
  let cb := getBBox c.info
  frames.foldl (phase2Step cb (cb.right - cb.left) (cb.bottom - cb.top)) none

/-- Phase 2: spillover assignment for non-frame objects not assigned in
Phase 1. -/
def phase2Assign (frames : List ObjEntry) (cs : List ObjEntry)
    (init : ChildrenMap × List String) : ChildrenMap :=
  (cs.foldl (fun p c =>
    if p.2.contains c.id || c.info.type == "frame" then p
    else
      match phase2Scan frames c with
      | some (bid, _) => if bid ≠ "" then (pushChild p.1 bid c, p.2) else p
      | none => p) init).1

/-- The two-phase child assignment of §4.7.1. -/
def assignChildren (frames : List ObjEntry) (cs : List ObjEntry) :
    ChildrenMap :=
  phase2Assign frames cs (phase1Assign frames cs)

def PADDING_SIDE : ℚ := 30
def PADDING_TOP : ℚ := 70
def PADDING_BOTTOM : ℚ := 30

/-- The frame-expansion arithmetic (`newX/newY/newWidth/newHeight` of
`fitFramesToContent`): element-wise min of origins and max of far
corners. -/
def expandedRect (fx fy fw fh rX rY rR rB : ℚ) : ℚ × ℚ × ℚ × ℚ :=
  let newX := min fx rX
  let newY := min fy rY
  (newX, newY, max (fx + fw) rR - newX, max (fy + fh) rB - newY)

/-- A child's bbox evaluated on the *latest* merged state
(`objMap.get(c.id) ?? c`). -/
def bbLatest (objMap : List (String × ObjInfo)) (c : ObjEntry) : BBox :=
  getBBox ((alGet objMap c.id).getD c.info)

/-- One child's contribution to `needMinX/needMinY/needMaxX/needMaxY`
(`±Infinity` start is the `none` accumulator). -/
def foldNeedsStep (objMap : List (String × ObjInfo))
    (acc : Option (ℚ × ℚ × ℚ × ℚ)) (c : ObjEntry) : Option (ℚ × ℚ × ℚ × ℚ) :=
  let bb := bbLatest objMap c
  match acc with
  | none => some (bb.left, bb.top, bb.right, bb.bottom)
  | some (a, b, r, s) =>
      some (min a bb.left, min b bb.top, max r bb.right, max s bb.bottom)

/-- The `needMinX/needMinY/needMaxX/needMaxY` fold over a frame's
children. -/
def foldNeeds (objMap : List (String × ObjInfo)) (inside : List ObjEntry) :
    Option (ℚ × ℚ × ℚ × ℚ) :=
  inside.foldl (foldNeedsStep objMap) none

/-- The mutable state of the expansion loop: the merged object map, the
pending-writes array and the id → write-index map. -/
structure FitState where
  objMap : List (String × ObjInfo)
  writes : List PendingWrite
  writeIdx : List (String × Nat)

/-- Assigning `x`, `y`, `width`, `height` onto an existing write's data. -/
def setRectFields (d : Fields) (nx ny nw nh : ℚ) : Fields :=
  setField (setField (setField (setField d "x" (.num nx)) "y" (.num ny))
    "width" (.num nw)) "height" (.num nh)

/-- The write-array bookkeeping for one expanded frame: mutate the
existing pending write's data in place if one exists (`existingWrite &&
existingWrite.data`), otherwise append a fresh merge write carrying only
the new `x`, `y`, `width`, `height`. -/
def applyFrameWrite (boardId fid : String) (newX newY newW newH : ℚ)
    (writes : List PendingWrite) (writeIdx : List (String × Nat)) :
    List PendingWrite × List (String × Nat) :=
  let appended :=
    (writes ++
      [{ type := .update
         path := "boards/" ++ boardId ++ "/objects/" ++ fid
         data := some [("x", .num newX), ("y", .num newY),
                       ("width", .num newW), ("height", .num newH)] }],
     alSet writeIdx fid writes.length)
  match alGet writeIdx fid with
  | some idx =>
    match writes.get? idx with
    | some w =>
      match w.data with
      | some d =>
          (writes.set idx { w with data := some (setRectFields d newX newY newW newH) },
           writeIdx)
      | none => appended
    | none => appended
  | none => appended

/-- Processing one frame of the expansion loop. -/
def expandStep (boardId : String) (cm : ChildrenMap) (st : FitState)
    (frame : ObjEntry) : FitState :=
  let inside := (alGet cm frame.id).getD []
  match foldNeeds st.objMap inside with
  | none => st
  | some (mnX, mnY, mxX, mxY) =>
    let r := expandedRect frame.info.x frame.info.y frame.info.width
      frame.info.height (mnX - PADDING_SIDE) (mnY - PADDING_TOP)
      (mxX + PADDING_SIDE) (mxY + PADDING_BOTTOM)
    let newX := r.1
    let newY := r.2.1
    let newW := r.2.2.1
    let newH := r.2.2.2
    if newX = frame.info.x ∧ newY = frame.info.y ∧
        newW = frame.info.width ∧ newH = frame.info.height then st
    else
      { objMap := alSet st.objMap frame.id
          { type := "frame", x := newX, y := newY, width := newW, height := newH }
        writes := (applyFrameWrite boardId frame.id newX newY newW newH
          st.writes st.writeIdx).1
        writeIdx := (applyFrameWrite boardId frame.id newX newY newW newH
          st.writes st.writeIdx).2 }

/-- The expansion loop, over frames sorted by increasing current area. -/
def expandFrames (boardId : String) (cm : ChildrenMap)
    (fs : List ObjEntry) (st : FitState) : FitState :=
  fs.foldl (expandStep boardId cm) st

/-- `[...frames].sort((a, b) => area(a) - area(b))` — a stable ascending
sort by current area. -/
def sortFrames (frames : List ObjEntry) : List ObjEntry :=
  frames.mergeSort (fun a b => decide (areaOf a ≤ areaOf b))

/-- The full auto-fit state after the expansion loop. -/
def fitFinalState (pendingWrites : List PendingWrite)
    (existingState : List BoardStateObject) (boardId : String) : FitState :=
  let maps := buildMaps existingState pendingWrites
  let frames := framesOf maps.1
  let cs := potentialChildrenOf maps.1
  expandFrames boardId (assignChildren frames cs) (sortFrames frames)
    { objMap := maps.1, writes := pendingWrites, writeIdx := maps.2 }

/-- `fitFramesToContent`: the pending-writes array after the auto-fit
pass (mutations applied, frame-resize writes appended). -/
def fitFramesToContent (pendingWrites : List PendingWrite)
    (existingState : List BoardStateObject) (boardId : String) :
    List PendingWrite :=
  let maps := buildMaps existingState pendingWrites
  if (framesOf maps.1).isEmpty then pendingWrites
  else (fitFinalState pendingWrites existingState boardId).writes

/-- Claim C5: the expansion arithmetic is monotone — the new rectangle
always contains the frame's previous rectangle (`newX ≤ x`, `newY ≤ y`,
`newX + newWidth ≥ x + width`, `newY + newHeight ≥ y + height`); frames
only grow, never shrink. -/
theorem claim_C5_frames_only_grow (fx fy fw fh rX rY rR rB : ℚ) :
    (expandedRect fx fy fw fh rX rY rR rB).1 ≤ fx ∧
    (expandedRect fx fy fw fh rX rY rR rB).2.1 ≤ fy ∧
    fx + fw ≤ (expandedRect fx fy fw fh rX rY rR rB).1 +
      (expandedRect fx fy fw fh rX rY rR rB).2.2.1 ∧
    fy + fh ≤ (expandedRect fx fy fw fh rX rY rR rB).2.1 +
      (expandedRect fx fy fw fh rX rY rR rB).2.2.2 := by
  refine ⟨min_le_left _ _, min_le_left _ _, ?_, ?_⟩
  · have h : fx + fw ≤ max (fx + fw) rR := le_max_left _ _
    simp only [expandedRect]
    linarith
  · have h : fy + fh ≤ max (fy + fh) rB := le_max_left _ _
    simp only [expandedRect]
    linarith

/-- A frame qualifies to receive `c` in Phase 1: it is not `c` itself and
its rectangle contains (half-open) `c`'s bbox top-left corner. -/
def phase1Qualifies (c g : ObjEntry) : Prop :=
  g.id ≠ c.id ∧ containsTL g (getBBox c.info) = true

/-- Invariant of Phase 1's best-frame fold: the accumulator is `none`
exactly while no qualifier has been seen, the result's area only
decreases, and every qualifier bounds the final area from above. -/
theorem phase1_fold_spec (c : ObjEntry) :
    ∀ (l : List ObjEntry) (acc : Option (String × ℚ)),
      (l.foldl (phase1Step c) acc = none →
        acc = none ∧ ∀ g ∈ l, ¬ phase1Qualifies c g) ∧
      (∀ fid a, l.foldl (phase1Step c) acc = some (fid, a) →
        acc = some (fid, a) ∨
          ∃ f ∈ l, phase1Qualifies c f ∧ fid = f.id ∧ a = areaOf f) ∧
      (∀ g ∈ l, phase1Qualifies c g →
        ∃ fid a, l.foldl (phase1Step c) acc = some (fid, a) ∧ a ≤ areaOf g) ∧
      (∀ b ba, acc = some (b, ba) →
        ∃ fid a, l.foldl (phase1Step c) acc = some (fid, a) ∧ a ≤ ba) := by
  intro l
  induction l with
  | nil =>
    intro acc
    refine ⟨?_, ?_, ?_, ?_⟩
    · intro h; exact ⟨h, by simp⟩
    · intro fid a h; exact Or.inl h
    · intro g hg; simp at hg
    · intro b ba h; exact ⟨b, ba, h, le_refl _⟩
  | cons f t ih =>
    intro acc
    rw [List.foldl_cons]
    rcases ih (phase1Step c acc f) with ⟨ih1, ih2, ih3, ih4⟩
    by_cases hid : f.id = c.id
    · have hstep : phase1Step c acc f = acc := by simp [phase1Step, hid]
      rw [hstep] at ih1 ih2 ih3 ih4 ⊢
      refine ⟨?_, ?_, ?_, ih4⟩
      · intro h
        rcases ih1 h with ⟨h1, h2⟩
        refine ⟨h1, ?_⟩
        intro g hg
        rcases List.mem_cons.mp hg with rfl | hg
        · intro hq; exact hq.1 hid
        · exact h2 g hg
      · intro fid a h
        rcases ih2 fid a h with h' | ⟨g, hg, hq, he⟩
        · exact Or.inl h'
        · exact Or.inr ⟨g, List.mem_cons_of_mem _ hg, hq, he⟩
      · intro g hg hq
        rcases List.mem_cons.mp hg with rfl | hg
        · exact absurd hid hq.1
        · exact ih3 g hg hq
    · by_cases hcont : containsTL f (getBBox c.info) = true
      · -- f qualifies
        have hqf : phase1Qualifies c f := ⟨hid, hcont⟩
        have hstep : ∃ fa, phase1Step c acc f = some fa ∧ fa.2 ≤ areaOf f ∧
            (∀ b ba, acc = some (b, ba) → fa.2 ≤ ba) ∧
            (acc = some fa ∨ fa = (f.id, areaOf f)) := by
          match acc with
          | none =>
            refine ⟨(f.id, areaOf f), ?_, le_refl _, ?_, Or.inr rfl⟩
            · simp [phase1Step, hid, hcont]
            · intro b ba h; cases h
          | some (bid, ba) =>
            by_cases hlt : areaOf f < ba
            · refine ⟨(f.id, areaOf f), ?_, le_refl _, ?_, Or.inr rfl⟩
              · simp [phase1Step, hid, hcont, hlt]
              · intro b ba' h
                injection h with h'
                cases h'
                exact le_of_lt hlt
            · refine ⟨(bid, ba), ?_, le_of_not_lt hlt, ?_, Or.inl rfl⟩
              · simp [phase1Step, hid, hcont, hlt]
              · intro b ba' h
                cases h
                exact le_refl _
        rcases hstep with ⟨fa, hfa, hfa2, hfa3, hfa4⟩
        rw [hfa] at ih1 ih2 ih3 ih4 ⊢
        refine ⟨?_, ?_, ?_, ?_⟩
        · intro h
          rcases ih1 h with ⟨h1, _⟩
          cases h1
        · intro fid a h
          rcases ih2 fid a h with h' | ⟨g, hg, hq, he⟩
          · injection h' with h''
            rcases hfa4 with h4 | h4
            · exact Or.inl (by rw [h4, h''])
            · have h5 : (f.id, areaOf f) = (fid, a) := by rw [← h4, h'']
              injection h5 with h6 h7
              exact Or.inr ⟨f, List.mem_cons_self _ _, hqf, h6.symm, h7.symm⟩
          · exact Or.inr ⟨g, List.mem_cons_of_mem _ hg, hq, he⟩
        · intro g hg hq
          rcases List.mem_cons.mp hg with rfl | hg
          · rcases ih4 fa.1 fa.2 (by simp) with ⟨fid, a, hres, hle⟩
            exact ⟨fid, a, hres, hle.trans hfa2⟩
          · exact ih3 g hg hq
        · intro b ba h
          rcases ih4 fa.1 fa.2 (by simp) with ⟨fid, a, hres, hle⟩
          exact ⟨fid, a, hres, hle.trans (hfa3 b ba h)⟩
      · -- f does not contain the corner
        have hstep : phase1Step c acc f = acc := by
          simp [phase1Step, hid, hcont]
        rw [hstep] at ih1 ih2 ih3 ih4 ⊢
        refine ⟨?_, ?_, ?_, ih4⟩
        · intro h
          rcases ih1 h with ⟨h1, h2⟩
          refine ⟨h1, ?_⟩
          intro g hg
          rcases List.mem_cons.mp hg with rfl | hg
          · intro hq; exact hcont hq.2
          · exact h2 g hg
        · intro fid a h
          rcases ih2 fid a h with h' | ⟨g, hg, hq, he⟩
          · exact Or.inl h'
          · exact Or.inr ⟨g, List.mem_cons_of_mem _ hg, hq, he⟩
        · intro g hg hq
          rcases List.mem_cons.mp hg with rfl | hg
          · exact absurd hq.2 hcont
          · exact ih3 g hg hq

/-- Claim C6, counterexample: a sticky whose bbox top-left lies exactly
on a frame's left edge is assigned by Phase 1 (the code's containment
test is half-open), although no frame *strictly* contains that corner —
so, as stated, the child should have been left unassigned. -/
theorem claim_C6_counterexample :
    (phase1Assign
        [⟨"F", { type := "frame", x := 0, y := 0, width := 100, height := 100 }⟩]
        [⟨"S", { type := "sticky", x := 0, y := 50, width := 10, height := 10 }⟩]).2
      = ["S"] ∧
    strictlyContainsTL
      ⟨"F", { type := "frame", x := 0, y := 0, width := 100, height := 100 }⟩
      (getBBox { type := "sticky", x := 0, y := 50, width := 10, height := 10 })
      = false := by
  constructor
  · norm_num [phase1Assign, phase1Scan, phase1Step, containsTL, getBBox,
      areaOf, pushChild, List.foldl]
    simp
    norm_num
    simp
  · norm_num [strictlyContainsTL, getBBox]
    simp

/-- Claim C6, amended: Phase 1's scan selects, for each non-connector
object `c`, a frame of smallest area among the frames (other than `c`
itself) whose rectangle contains `c`'s bbox top-left corner under the
*half-open* rule (left/top edge included, right/bottom edge excluded);
if no frame so contains the corner, the scan selects none and `c` is
left unassigned by Phase 1. -/
theorem claim_C6_phase1_smallest_containing_frame
    (frames : List ObjEntry) (c : ObjEntry) :
    (∀ fid a, phase1Scan frames c = some (fid, a) →
      ∃ f ∈ frames, fid = f.id ∧ a = areaOf f ∧ phase1Qualifies c f ∧
        ∀ g ∈ frames, phase1Qualifies c g → a ≤ areaOf g) ∧
    (phase1Scan frames c = none →
      ∀ g ∈ frames, ¬ phase1Qualifies c g) := by
  rcases phase1_fold_spec c frames none with ⟨h1, h2, h3, _⟩
  constructor
  · intro fid a h
    rcases h2 fid a h with h' | ⟨f, hf, hq, hfid, ha⟩
    · cases h'
    · refine ⟨f, hf, hfid, ha, hq, ?_⟩
      intro g hg hqg
      rcases h3 g hg hqg with ⟨fid', a', hres, hle⟩
      have : (fid, a) = (fid', a') := by
        have := h.symm.trans hres
        injection this
      cases this
      exact hle
  · intro h g hg hq
    rcases h3 g hg hq with ⟨fid', a', hres, _⟩
    rw [phase1Scan] at h
    rw [h] at hres
    cases hres

/-- Claim C6 witness: a frame at `(0,0)` of size `400×400` and a second
frame at `(10,10)` of size `100×100` both contain a sticky at `(20,90)`;
the scan picks the smaller frame. -/
theorem claim_C6_phase1_witness :
    phase1Scan
      [⟨"F", { type := "frame", x := 0, y := 0, width := 400, height := 400 }⟩,
       ⟨"G", { type := "frame", x := 10, y := 10, width := 100, height := 100 }⟩]
      ⟨"S", { type := "sticky", x := 20, y := 90, width := 200, height := 200 }⟩
      = some ("G", 10000) ∧
    (∃ f ∈ [⟨"F", { type := "frame", x := 0, y := 0, width := 400, height := 400 }⟩,
            (⟨"G", { type := "frame", x := 10, y := 10, width := 100, height := 100 }⟩ : ObjEntry)],
      "G" = f.id ∧ (10000 : ℚ) = areaOf f ∧
        phase1Qualifies ⟨"S", { type := "sticky", x := 20, y := 90, width := 200, height := 200 }⟩ f ∧
        ∀ g ∈ [⟨"F", { type := "frame", x := 0, y := 0, width := 400, height := 400 }⟩,
               (⟨"G", { type := "frame", x := 10, y := 10, width := 100, height := 100 }⟩ : ObjEntry)],
          phase1Qualifies ⟨"S", { type := "sticky", x := 20, y := 90, width := 200, height := 200 }⟩ g →
            (10000 : ℚ) ≤ areaOf g) :=
  ⟨by norm_num [phase1Scan, phase1Step, containsTL, getBBox, areaOf, List.foldl]
      simp
      norm_num
   , (claim_C6_phase1_smallest_containing_frame _ _).1 "G" 10000
     (by norm_num [phase1Scan, phase1Step, containsTL, getBBox, areaOf, List.foldl]
         simp
         norm_num)⟩

/-! ### Association-list lemmas -/

def NodupKeys {α : Type} (m : List (String × α)) : Prop :=
  (m.map Prod.fst).Nodup

theorem alGet_cons {α : Type} (k₀ : String) (v₀ : α)
    (rest : List (String × α)) (k : String) :
    alGet ((k₀, v₀) :: rest) k = if k₀ = k then some v₀ else alGet rest k := by
  by_cases h : k₀ = k
  · subst h
    simp [alGet, List.find?]
  · have hb : (k₀ == k) = false := beq_eq_false_iff_ne.mpr h
    simp [alGet, List.find?, hb, h]

theorem alSet_cons {α : Type} (k₀ : String) (v₀ : α)
    (rest : List (String × α)) (k : String) (v : α) :
    alSet ((k₀, v₀) :: rest) k v =
      if k₀ = k then (k, v) :: rest else (k₀, v₀) :: alSet rest k v := rfl

theorem alGet_alSet_self {α : Type} (m : List (String × α)) (k : String)
    (v : α) : alGet (alSet m k v) k = some v := by
  induction m with
  | nil => simp [alSet, alGet, List.find?]
  | cons p rest ih =>
    obtain ⟨k₀, v₀⟩ := p
    rw [alSet_cons]
    by_cases h : k₀ = k
    · rw [if_pos h, alGet_cons, if_pos rfl]
    · rw [if_neg h, alGet_cons, if_neg h]
      exact ih

theorem alGet_alSet_ne {α : Type} (m : List (String × α)) (k k' : String)
    (v : α) (h : k' ≠ k) : alGet (alSet m k v) k' = alGet m k' := by
  induction m with
  | nil =>
    rw [show alSet ([] : List (String × α)) k v = [(k, v)] from rfl,
      alGet_cons, if_neg (Ne.symm h)]
  | cons p rest ih =>
    obtain ⟨k₀, v₀⟩ := p
    rw [alSet_cons]
    by_cases h₀ : k₀ = k
    · subst h₀
      rw [if_pos rfl, alGet_cons, if_neg (Ne.symm h), alGet_cons,
        if_neg (Ne.symm h)]
    · rw [if_neg h₀, alGet_cons, alGet_cons]
      by_cases h₁ : k₀ = k'
      · rw [if_pos h₁, if_pos h₁]
      · rw [if_neg h₁, if_neg h₁]
        exact ih

theorem mem_of_alGet {α : Type} (m : List (String × α)) (k : String) (v : α)
    (h : alGet m k = some v) : (k, v) ∈ m := by
  induction m with
  | nil => simp [alGet] at h
  | cons p rest ih =>
    obtain ⟨k₀, v₀⟩ := p
    rw [alGet_cons] at h
    by_cases h₀ : k₀ = k
    · rw [if_pos h₀] at h
      injection h with h
      subst h₀
      subst h
      exact List.mem_cons_self _ _
    · rw [if_neg h₀] at h
      exact List.mem_cons_of_mem _ (ih h)

theorem alGet_of_mem {α : Type} (m : List (String × α)) (k : String) (v : α)
    (hnd : NodupKeys m) (h : (k, v) ∈ m) : alGet m k = some v := by
  induction m with
  | nil => simp at h
  | cons p rest ih =>
    obtain ⟨k₀, v₀⟩ := p
    have hnd0 := List.nodup_cons.mp
      (show (k₀ :: rest.map Prod.fst).Nodup from hnd)
    rcases List.mem_cons.mp h with he | hm
    · injection he with h1 h2
      subst h1; subst h2
      rw [alGet_cons, if_pos rfl]
    · have hk : k₀ ≠ k := by
        intro he
        subst he
        exact hnd0.1 (List.mem_map.mpr ⟨(k₀, v), hm, rfl⟩)
      rw [alGet_cons, if_neg hk]
      exact ih hnd0.2 hm

theorem nodupKeys_value_unique {α : Type} (m : List (String × α))
    (k : String) (v v' : α) (hnd : NodupKeys m) (h : (k, v) ∈ m)
    (h' : (k, v') ∈ m) : v = v' := by
  have e1 := alGet_of_mem m k v hnd h
  have e2 := alGet_of_mem m k v' hnd h'
  rw [e1] at e2
  injection e2

theorem keys_alSet_mem {α : Type} (m : List (String × α)) (k a : String)
    (v : α) (h : a ∈ (alSet m k v).map Prod.fst) :
    a ∈ m.map Prod.fst ∨ a = k := by
  induction m with
  | nil =>
    rw [show alSet ([] : List (String × α)) k v = [(k, v)] from rfl] at h
    simp at h
    exact Or.inr h
  | cons p rest ih =>
    obtain ⟨k₀, v₀⟩ := p
    rw [alSet_cons] at h
    by_cases h₀ : k₀ = k
    · rw [if_pos h₀, List.map_cons] at h
      rcases List.mem_cons.mp h with he | hm
      · exact Or.inr he
      · exact Or.inl (by rw [List.map_cons]; exact List.mem_cons_of_mem _ hm)
    · rw [if_neg h₀, List.map_cons] at h
      rcases List.mem_cons.mp h with he | hm
      · exact Or.inl (by rw [List.map_cons]; exact List.mem_cons.mpr (Or.inl he))
      · rcases ih hm with h' | h'
        · exact Or.inl (by rw [List.map_cons]; exact List.mem_cons_of_mem _ h')
        · exact Or.inr h'

theorem nodupKeys_alSet {α : Type} (m : List (String × α)) (k : String)
    (v : α) (hnd : NodupKeys m) : NodupKeys (alSet m k v) := by
  induction m with
  | nil => simp [alSet, NodupKeys]
  | cons p rest ih =>
    obtain ⟨k₀, v₀⟩ := p
    have hnd0 := List.nodup_cons.mp
      (show (k₀ :: rest.map Prod.fst).Nodup from hnd)
    rw [NodupKeys, alSet_cons]
    by_cases h₀ : k₀ = k
    · subst h₀
      rw [if_pos rfl, List.map_cons]
      exact List.nodup_cons.mpr ⟨hnd0.1, hnd0.2⟩
    · rw [if_neg h₀, List.map_cons]
      refine List.nodup_cons.mpr ⟨?_, ih hnd0.2⟩
      intro hm
      rcases keys_alSet_mem rest k k₀ v hm with h | h
      · exact hnd0.1 h
      · exact h₀ h

theorem nodupKeys_alDel {α : Type} (m : List (String × α)) (k : String)
    (hnd : NodupKeys m) : NodupKeys (alDel m k) :=
  ((List.filter_sublist m).map Prod.fst).nodup hnd

/-! ### Structural facts about the merged object map -/

theorem nodupKeys_objMapOfState_aux (l : List BoardStateObject)
    (m : List (String × ObjInfo)) (hnd : NodupKeys m) :
    NodupKeys (l.foldl (fun m obj => alSet m obj.id
      { type := obj.type, x := obj.x, y := obj.y,
        width := obj.width, height := obj.height, radius := obj.radius }) m) := by
  induction l generalizing m with
  | nil => exact hnd
  | cons o t ih => exact ih _ (nodupKeys_alSet _ _ _ hnd)

theorem nodupKeys_objMapOfState (s : List BoardStateObject) :
    NodupKeys (objMapOfState s) :=
  nodupKeys_objMapOfState_aux s [] (by simp [NodupKeys])

theorem nodupKeys_applyWrites (l : List (Nat × PendingWrite))
    (p : List (String × ObjInfo) × List (String × Nat))
    (hnd : NodupKeys p.1) : NodupKeys (l.foldl applyWriteToMaps p).1 := by
  induction l generalizing p with
  | nil => exact hnd
  | cons w t ih =>
    refine ih _ ?_
    rw [applyWriteToMaps]
    by_cases h : w.2.type = .delete
    · rw [if_pos h]
      exact nodupKeys_alDel _ _ hnd
    · rw [if_neg h]
      exact nodupKeys_alSet _ _ _ hnd

theorem nodupKeys_buildMaps (s : List BoardStateObject)
    (ws : List PendingWrite) : NodupKeys (buildMaps s ws).1 :=
  nodupKeys_applyWrites _ _ (nodupKeys_objMapOfState s)

theorem framesOf_mem (m : List (String × ObjInfo)) (f : ObjEntry)
    (h : f ∈ framesOf m) : (f.id, f.info) ∈ m ∧ f.info.type = "frame" := by
  rw [framesOf] at h
  rcases List.mem_map.mp h with ⟨p, hp, he⟩
  have hmem := List.mem_of_mem_filter hp
  have hpred := List.of_mem_filter hp
  subst he
  exact ⟨hmem, by simpa using hpred⟩

theorem potentialChildrenOf_mem (m : List (String × ObjInfo)) (c : ObjEntry)
    (h : c ∈ potentialChildrenOf m) :
    (c.id, c.info) ∈ m ∧ c.info.type ≠ "connector" := by
  rw [potentialChildrenOf] at h
  rcases List.mem_map.mp h with ⟨p, hp, he⟩
  have hmem := List.mem_of_mem_filter hp
  have hpred := List.of_mem_filter hp
  subst he
  exact ⟨hmem, by simpa using hpred⟩

theorem framesOf_ids_nodup (m : List (String × ObjInfo))
    (hnd : NodupKeys m) : ((framesOf m).map (·.id)).Nodup := by
  have he : (framesOf m).map (·.id) =
      (m.filter (fun p => p.2.type == "frame")).map Prod.fst := by
    rw [framesOf, List.map_map]
    rfl
  rw [he]
  exact ((List.filter_sublist m).map Prod.fst).nodup hnd

/-- A non-frame potential child's id is not among the frame ids. -/
theorem child_id_not_frame_id (m : List (String × ObjInfo))
    (hnd : NodupKeys m) (c : ObjEntry) (hc : (c.id, c.info) ∈ m)
    (hcf : c.info.type ≠ "frame") : ∀ f ∈ framesOf m, c.id ≠ f.id := by
  intro f hf he
  rcases framesOf_mem m f hf with ⟨hfm, hft⟩
  rw [← he] at hfm
  have := nodupKeys_value_unique m c.id c.info f.info hnd hc hfm
  rw [this] at hcf
  exact hcf hft

/-! ### Children-map membership -/

def cmAllFrom (cm : ChildrenMap) (cs : List ObjEntry) : Prop :=
  ∀ p ∈ cm, ∀ c ∈ p.2, c ∈ cs

theorem cmAllFrom_pushChild (cm : ChildrenMap) (cs : List ObjEntry)
    (fid : String) (c : ObjEntry) (hall : cmAllFrom cm cs) (hc : c ∈ cs) :
    cmAllFrom (pushChild cm fid c) cs := by
  induction cm with
  | nil => intro p hp; simp [pushChild] at hp
  | cons q rest ih =>
    obtain ⟨k, l⟩ := q
    intro p hp
    rw [pushChild] at hp
    by_cases h : k = fid
    · rw [if_pos h] at hp
      rcases List.mem_cons.mp hp with he | hm
      · subst he
        intro x hx
        rcases List.mem_append.mp hx with hx | hx
        · exact hall (k, l) (List.mem_cons_self _ _) x hx
        · rw [List.mem_singleton.mp hx]
          exact hc
      · exact hall p (List.mem_cons_of_mem _ hm)
    · rw [if_neg h] at hp
      rcases List.mem_cons.mp hp with he | hm
      · subst he
        exact hall (k, l) (List.mem_cons_self _ _)
      · exact ih (fun q hq => hall q (List.mem_cons_of_mem _ hq)) p hm

theorem cmAllFrom_phase1 (frames : List ObjEntry) (cs : List ObjEntry) :
    cmAllFrom (phase1Assign frames cs).1 cs := by
  rw [phase1Assign]
  have hgen : ∀ (l : List ObjEntry) (p : ChildrenMap × List String),
      cmAllFrom p.1 cs → (∀ x ∈ l, x ∈ cs) →
      cmAllFrom (l.foldl (fun p c =>
        match phase1Scan frames c with
        | some (bid, _) =>
            if bid ≠ "" then (pushChild p.1 bid c, p.2 ++ [c.id]) else p
        | none => p) p).1 cs := by
    intro l
    induction l with
    | nil => intro p hp _; exact hp
    | cons c t ih =>
      intro p hp hl
      rw [List.foldl_cons]
      refine ih _ ?_ (fun x hx => hl x (List.mem_cons_of_mem _ hx))
      rcases hscan : phase1Scan frames c with _ | ⟨bid, ba⟩
      · simpa [hscan] using hp
      · by_cases hb : bid ≠ ""
        · simpa [hscan, hb] using
            cmAllFrom_pushChild p.1 cs bid c hp (hl c (List.mem_cons_self _ _))
        · simpa [hscan, hb] using hp
  refine hgen cs _ ?_ (fun x hx => hx)
  intro p hp c hc
  rcases List.mem_map.mp hp with ⟨f, _, he⟩
  rw [← he] at hc
  simp at hc

theorem cmAllFrom_phase2 (frames : List ObjEntry) (cs : List ObjEntry)
    (init : ChildrenMap × List String) (hall : cmAllFrom init.1 cs) :
    cmAllFrom (phase2Assign frames cs init) cs := by
  rw [phase2Assign]
  have hgen : ∀ (l : List ObjEntry) (p : ChildrenMap × List String),
      cmAllFrom p.1 cs → (∀ x ∈ l, x ∈ cs) →
      cmAllFrom (l.foldl (fun p c =>
        if p.2.contains c.id || c.info.type == "frame" then p
        else
          match phase2Scan frames c with
          | some (bid, _) => if bid ≠ "" then (pushChild p.1 bid c, p.2) else p
          | none => p) p).1 cs := by
    intro l
    induction l with
    | nil => intro p hp _; exact hp
    | cons c t ih =>
      intro p hp hl
      rw [List.foldl_cons]
      refine ih _ ?_ (fun x hx => hl x (List.mem_cons_of_mem _ hx))
      by_cases hskip : (p.2.contains c.id || c.info.type == "frame") = true
      · rw [if_pos hskip]
        exact hp
      · rw [if_neg hskip]
        rcases hscan : phase2Scan frames c with _ | ⟨bid, bd⟩
        · simp only [hscan]
          exact hp
        · simp only [hscan]
          by_cases hb : bid = ""
          · rw [if_neg (not_not_intro hb)]
            exact hp
          · rw [if_pos hb]
            exact cmAllFrom_pushChild p.1 cs bid c hp
              (hl c (List.mem_cons_self _ _))
  exact hgen cs _ hall (fun x hx => hx)

theorem assignChildren_mem (frames : List ObjEntry) (cs : List ObjEntry)
    (fid : String) (c : ObjEntry)
    (hc : c ∈ (alGet (assignChildren frames cs) fid).getD []) : c ∈ cs := by
  rcases hget : alGet (assignChildren frames cs) fid with _ | l
  · rw [hget] at hc; simp at hc
  · rw [hget] at hc
    have hmem := mem_of_alGet _ _ _ hget
    exact cmAllFrom_phase2 frames cs _ (cmAllFrom_phase1 frames cs)
      (fid, l) hmem c hc

/-! ### Bounds through the expansion loop -/

theorem foldNeeds_go (om : List (String × ObjInfo)) (l : List ObjEntry) :
    ∀ acc : Option (ℚ × ℚ × ℚ × ℚ),
      (∀ a b r s, acc = some (a, b, r, s) →
        ∃ a' b' r' s', l.foldl (foldNeedsStep om) acc = some (a', b', r', s') ∧
          a' ≤ a ∧ b' ≤ b ∧ r ≤ r' ∧ s ≤ s') ∧
      (∀ c ∈ l,
        ∃ a' b' r' s', l.foldl (foldNeedsStep om) acc = some (a', b', r', s') ∧
          a' ≤ (bbLatest om c).left ∧ b' ≤ (bbLatest om c).top ∧
          (bbLatest om c).right ≤ r' ∧ (bbLatest om c).bottom ≤ s') := by
  induction l with
  | nil =>
    intro acc
    constructor
    · intro a b r s h
      exact ⟨a, b, r, s, h, le_refl _, le_refl _, le_refl _, le_refl _⟩
    · intro c hc; simp at hc
  | cons c₀ t ih =>
    intro acc
    have hstep : ∃ a₁ b₁ r₁ s₁,
        foldNeedsStep om acc c₀ = some (a₁, b₁, r₁, s₁) ∧
        a₁ ≤ (bbLatest om c₀).left ∧ b₁ ≤ (bbLatest om c₀).top ∧
        (bbLatest om c₀).right ≤ r₁ ∧ (bbLatest om c₀).bottom ≤ s₁ ∧
        (∀ a b r s, acc = some (a, b, r, s) →
          a₁ ≤ a ∧ b₁ ≤ b ∧ r ≤ r₁ ∧ s ≤ s₁) := by
      match acc with
      | none =>
        exact ⟨_, _, _, _, rfl, le_refl _, le_refl _, le_refl _, le_refl _,
          fun a b r s h => by cases h⟩
      | some (a, b, r, s) =>
        refine ⟨_, _, _, _, rfl, min_le_right _ _, min_le_right _ _,
          le_max_right _ _, le_max_right _ _, ?_⟩
        intro a' b' r' s' h
        injection h with h'
        injection h' with h1 h'
        injection h' with h2 h'
        injection h' with h3 h4
        subst h1; subst h2; subst h3; subst h4
        exact ⟨min_le_left _ _, min_le_left _ _, le_max_left _ _, le_max_left _ _⟩
    obtain ⟨a₁, b₁, r₁, s₁, hs, hbl, hbt, hbr, hbs, hmono⟩ := hstep
    rw [List.foldl_cons, hs]
    rcases ih (some (a₁, b₁, r₁, s₁)) with ⟨ih1, ih2⟩
    constructor
    · intro a b r s h
      obtain ⟨ma, mb, mr, ms⟩ := hmono a b r s h
      obtain ⟨a', b', r', s', hres, ha, hb, hr, hsb⟩ := ih1 a₁ b₁ r₁ s₁ rfl
      exact ⟨a', b', r', s', hres, ha.trans ma, hb.trans mb,
        mr.trans hr, ms.trans hsb⟩
    · intro c hc
      rcases List.mem_cons.mp hc with rfl | hct
      · obtain ⟨a', b', r', s', hres, ha, hb, hr, hsb⟩ := ih1 a₁ b₁ r₁ s₁ rfl
        exact ⟨a', b', r', s', hres, ha.trans hbl, hb.trans hbt,
          hbr.trans hr, hbs.trans hsb⟩
      · exact ih2 c hct

theorem foldNeeds_bounds (om : List (String × ObjInfo))
    (inside : List ObjEntry) (c : ObjEntry) (hc : c ∈ inside) :
    ∃ a b r s, foldNeeds om inside = some (a, b, r, s) ∧
      a ≤ (bbLatest om c).left ∧ b ≤ (bbLatest om c).top ∧
      (bbLatest om c).right ≤ r ∧ (bbLatest om c).bottom ≤ s :=
  (foldNeeds_go om inside none).2 c hc

theorem expandedRect_pad_bounds (fx fy fw fh a b r s : ℚ) :
    (expandedRect fx fy fw fh (a - PADDING_SIDE) (b - PADDING_TOP)
      (r + PADDING_SIDE) (s + PADDING_BOTTOM)).1 + PADDING_SIDE ≤ a ∧
    (expandedRect fx fy fw fh (a - PADDING_SIDE) (b - PADDING_TOP)
      (r + PADDING_SIDE) (s + PADDING_BOTTOM)).2.1 + PADDING_TOP ≤ b ∧
    r ≤ (expandedRect fx fy fw fh (a - PADDING_SIDE) (b - PADDING_TOP)
      (r + PADDING_SIDE) (s + PADDING_BOTTOM)).1 +
      (expandedRect fx fy fw fh (a - PADDING_SIDE) (b - PADDING_TOP)
        (r + PADDING_SIDE) (s + PADDING_BOTTOM)).2.2.1 - PADDING_SIDE ∧
    s ≤ (expandedRect fx fy fw fh (a - PADDING_SIDE) (b - PADDING_TOP)
      (r + PADDING_SIDE) (s + PADDING_BOTTOM)).2.1 +
      (expandedRect fx fy fw fh (a - PADDING_SIDE) (b - PADDING_TOP)
        (r + PADDING_SIDE) (s + PADDING_BOTTOM)).2.2.2 - PADDING_BOTTOM := by
  simp only [expandedRect]
  refine ⟨?_, ?_, ?_, ?_⟩
  · have := min_le_right fx (a - PADDING_SIDE)
    linarith
  · have := min_le_right fy (b - PADDING_TOP)
    linarith
  · have := le_max_right (fx + fw) (r + PADDING_SIDE)
    linarith
  · have := le_max_right (fy + fh) (s + PADDING_BOTTOM)
    linarith

theorem expandStep_objMap_ne (boardId : String) (cm : ChildrenMap)
    (st : FitState) (frame : ObjEntry) (id : String) (h : id ≠ frame.id) :
    alGet (expandStep boardId cm st frame).objMap id = alGet st.objMap id := by
  rw [expandStep]
  rcases hn : foldNeeds st.objMap ((alGet cm frame.id).getD [])
    with _ | ⟨mnX, mnY, mxX, mxY⟩
  · simp only [hn]
  · simp only [hn]
    split
    · rfl
    · exact alGet_alSet_ne _ _ _ _ h

theorem expandFrames_cons (boardId : String) (cm : ChildrenMap)
    (f : ObjEntry) (t : List ObjEntry) (st : FitState) :
    expandFrames boardId cm (f :: t) st =
      expandFrames boardId cm t (expandStep boardId cm st f) := by
  rw [expandFrames, expandFrames, List.foldl_cons]

theorem expandFrames_append (boardId : String) (cm : ChildrenMap)
    (l1 l2 : List ObjEntry) (st : FitState) :
    expandFrames boardId cm (l1 ++ l2) st =
      expandFrames boardId cm l2 (expandFrames boardId cm l1 st) := by
  rw [expandFrames, expandFrames, expandFrames, List.foldl_append]

theorem expandFrames_objMap_notmem (boardId : String) (cm : ChildrenMap)
    (fs : List ObjEntry) (st : FitState) (id : String)
    (h : ∀ g ∈ fs, id ≠ g.id) :
    alGet (expandFrames boardId cm fs st).objMap id = alGet st.objMap id := by
  induction fs generalizing st with
  | nil => rfl
  | cons g t ih =>
    rw [expandFrames_cons,
      ih _ (fun g' hg' => h g' (List.mem_cons_of_mem _ hg')),
      expandStep_objMap_ne _ _ _ _ _ (h g (List.mem_cons_self _ _))]

/-- Processing a frame leaves, at the frame's key, a rectangle that
contains every assigned child's latest bbox with the standard padding. -/
theorem expandStep_contains (boardId : String) (cm : ChildrenMap)
    (st : FitState) (frame : ObjEntry) (c : ObjEntry)
    (hc : c ∈ (alGet cm frame.id).getD [])
    (hbb : bbLatest st.objMap c = getBBox c.info)
    (hself : alGet st.objMap frame.id = some frame.info) :
    ∃ fi : ObjInfo,
      alGet (expandStep boardId cm st frame).objMap frame.id = some fi ∧
      fi.x + PADDING_SIDE ≤ (getBBox c.info).left ∧
      fi.y + PADDING_TOP ≤ (getBBox c.info).top ∧
      (getBBox c.info).right ≤ fi.x + fi.width - PADDING_SIDE ∧
      (getBBox c.info).bottom ≤ fi.y + fi.height - PADDING_BOTTOM := by
  obtain ⟨a, b, r, s, hn, ha, hb, hr, hs⟩ :=
    foldNeeds_bounds st.objMap ((alGet cm frame.id).getD []) c hc
  rw [hbb] at ha hb hr hs
  obtain ⟨p1, p2, p3, p4⟩ := expandedRect_pad_bounds frame.info.x frame.info.y
    frame.info.width frame.info.height a b r s
  rw [expandStep]
  simp only [hn]
  split
  · rename_i hif
    obtain ⟨h1, h2, h3, h4⟩ := hif
    exact ⟨frame.info, hself, by linarith, by linarith, by linarith,
      by linarith⟩
  · refine ⟨_, alGet_alSet_self _ _ _, ?_, ?_, ?_, ?_⟩ <;> dsimp only <;>
      linarith

/-- Claim C2, amended: after the auto-fit pass, every *non-frame* child
assigned to a frame by the two-phase algorithm lies inside the frame's
final rectangle with padding `PAD_SIDE = 30` on left and right,
`PAD_TOP = 70` on top and `PAD_BOTTOM = 30` on the bottom.  (Children
that are themselves frames can still escape: a frame-child is re-expanded
*after* a parent of smaller original area has already been processed —
see the counterexample.) -/
theorem claim_C2_autofit_nonframe_children_fit
    (pendingWrites : List PendingWrite) (existingState : List BoardStateObject)
    (boardId : String) (f c : ObjEntry)
    (hf : f ∈ framesOf (buildMaps existingState pendingWrites).1)
    (hc : c ∈ (alGet (assignChildren
        (framesOf (buildMaps existingState pendingWrites).1)
        (potentialChildrenOf (buildMaps existingState pendingWrites).1))
        f.id).getD [])
    (hcf : c.info.type ≠ "frame") :
    ∃ fi : ObjInfo,
      alGet (fitFinalState pendingWrites existingState boardId).objMap f.id
        = some fi ∧
      fi.x + PADDING_SIDE ≤ (getBBox c.info).left ∧
      fi.y + PADDING_TOP ≤ (getBBox c.info).top ∧
      (getBBox c.info).right ≤ fi.x + fi.width - PADDING_SIDE ∧
      (getBBox c.info).bottom ≤ fi.y + fi.height - PADDING_BOTTOM := by
  have hnd : NodupKeys (buildMaps existingState pendingWrites).1 :=
    nodupKeys_buildMaps existingState pendingWrites
  have hcs : c ∈ potentialChildrenOf (buildMaps existingState pendingWrites).1 :=
    assignChildren_mem _ _ f.id c hc
  obtain ⟨hcmem, _⟩ := potentialChildrenOf_mem _ c hcs
  have hcnotfr : ∀ g ∈ framesOf (buildMaps existingState pendingWrites).1,
      c.id ≠ g.id :=
    child_id_not_frame_id _ hnd c hcmem hcf
  obtain ⟨hfmem, _⟩ := framesOf_mem _ f hf
  have hperm : (sortFrames (framesOf (buildMaps existingState
      pendingWrites).1)).Perm (framesOf (buildMaps existingState
      pendingWrites).1) :=
    List.mergeSort_perm _ _
  have hfs : f ∈ sortFrames (framesOf (buildMaps existingState
      pendingWrites).1) := hperm.mem_iff.mpr hf
  have hndids : ((sortFrames (framesOf (buildMaps existingState
      pendingWrites).1)).map (·.id)).Nodup :=
    ((hperm.map (·.id)).nodup_iff).mpr (framesOf_ids_nodup _ hnd)
  obtain ⟨l1, l2, hsplit⟩ := List.append_of_mem hfs
  have hl1l2 : f.id ∉ l1.map (·.id) ∧ f.id ∉ l2.map (·.id) := by
    rw [hsplit, List.map_append, List.map_cons] at hndids
    rcases List.nodup_append.mp hndids with ⟨_, h2, hdisj⟩
    exact ⟨fun hm => hdisj hm (List.mem_cons_self _ _),
      (List.nodup_cons.mp h2).1⟩
  have hsubmem : ∀ g, g ∈ l1 ∨ g ∈ l2 →
      g ∈ framesOf (buildMaps existingState pendingWrites).1 := by
    intro g hg
    refine hperm.mem_iff.mp ?_
    rw [hsplit]
    rcases hg with hg | hg
    · exact List.mem_append.mpr (Or.inl hg)
    · exact List.mem_append.mpr (Or.inr (List.mem_cons_of_mem _ hg))
  have hunfold : fitFinalState pendingWrites existingState boardId =
      expandFrames boardId
        (assignChildren (framesOf (buildMaps existingState pendingWrites).1)
          (potentialChildrenOf (buildMaps existingState pendingWrites).1))
        (sortFrames (framesOf (buildMaps existingState pendingWrites).1))
        { objMap := (buildMaps existingState pendingWrites).1
          writes := pendingWrites
          writeIdx := (buildMaps existingState pendingWrites).2 } := rfl
  rw [hunfold, hsplit, expandFrames_append, expandFrames_cons]
  have hst1c : alGet (expandFrames boardId
      (assignChildren (framesOf (buildMaps existingState pendingWrites).1)
        (potentialChildrenOf (buildMaps existingState pendingWrites).1)) l1
      { objMap := (buildMaps existingState pendingWrites).1
        writes := pendingWrites
        writeIdx := (buildMaps existingState pendingWrites).2 }).objMap c.id
      = some c.info := by
    rw [expandFrames_objMap_notmem _ _ _ _ _
      (fun g hg => hcnotfr g (hsubmem g (Or.inl hg)))]
    exact alGet_of_mem _ _ _ hnd hcmem
  have hst1f : alGet (expandFrames boardId
      (assignChildren (framesOf (buildMaps existingState pendingWrites).1)
        (potentialChildrenOf (buildMaps existingState pendingWrites).1)) l1
      { objMap := (buildMaps existingState pendingWrites).1
        writes := pendingWrites
        writeIdx := (buildMaps existingState pendingWrites).2 }).objMap f.id
      = some f.info := by
    rw [expandFrames_objMap_notmem _ _ _ _ _
      (fun g hg he => hl1l2.1 (List.mem_map.mpr ⟨g, hg, he.symm⟩))]
    exact alGet_of_mem _ _ _ hnd hfmem
  have hbb : bbLatest (expandFrames boardId
      (assignChildren (framesOf (buildMaps existingState pendingWrites).1)
        (potentialChildrenOf (buildMaps existingState pendingWrites).1)) l1
      { objMap := (buildMaps existingState pendingWrites).1
        writes := pendingWrites
        writeIdx := (buildMaps existingState pendingWrites).2 }).objMap c
      = getBBox c.info := by
    rw [bbLatest, hst1c]
    rfl
  obtain ⟨fi, hfi, h1, h2, h3, h4⟩ := expandStep_contains boardId _ _ f c hc
    hbb hst1f
  refine ⟨fi, ?_, h1, h2, h3, h4⟩
  rw [expandFrames_objMap_notmem _ _ _ _ _
    (fun g hg he => hl1l2.2 (List.mem_map.mpr ⟨g, hg, he.symm⟩))]
  exact hfi

/-- Concrete board for the C2 witness: a frame with one sticky inside. -/
def w2Board : List BoardStateObject :=
  [{ id := "F", type := "frame", x := 0, y := 0, width := 400, height := 400 },
   { id := "S", type := "sticky", x := 50, y := 100, width := 200, height := 200 }]

def w2F : ObjEntry :=
  ⟨"F", { type := "frame", x := 0, y := 0, width := 400, height := 400 }⟩

def w2S : ObjEntry :=
  ⟨"S", { type := "sticky", x := 50, y := 100, width := 200, height := 200 }⟩

/-- Claim C2 witness: one frame at `(0,0,400,400)` with a sticky child at
`(50,100,200,200)`; the theorem applies and the padded containment holds
on the final state. -/
theorem claim_C2_autofit_witness :
    (w2F ∈ framesOf (buildMaps w2Board []).1 ∧
     w2S ∈ (alGet (assignChildren (framesOf (buildMaps w2Board []).1)
       (potentialChildrenOf (buildMaps w2Board []).1)) w2F.id).getD [] ∧
     w2S.info.type ≠ "frame") ∧
    (∃ fi : ObjInfo,
      alGet (fitFinalState [] w2Board "b").objMap w2F.id = some fi ∧
      fi.x + PADDING_SIDE ≤ (getBBox w2S.info).left ∧
      fi.y + PADDING_TOP ≤ (getBBox w2S.info).top ∧
      (getBBox w2S.info).right ≤ fi.x + fi.width - PADDING_SIDE ∧
      (getBBox w2S.info).bottom ≤ fi.y + fi.height - PADDING_BOTTOM) := by
  have h1 : w2F ∈ framesOf (buildMaps w2Board []).1 := by
    norm_num [w2Board, w2F, buildMaps, objMapOfState, applyWriteToMaps,
      alSet, framesOf, List.foldl, List.enum]
    simp
  have h2 : w2S ∈ (alGet (assignChildren (framesOf (buildMaps w2Board []).1)
      (potentialChildrenOf (buildMaps w2Board []).1)) w2F.id).getD [] := by
    norm_num [w2Board, w2F, w2S, buildMaps, objMapOfState, applyWriteToMaps,
      alSet, alGet, framesOf, potentialChildrenOf, assignChildren,
      phase1Assign, phase2Assign, phase1Scan, phase1Step, phase2Scan,
      phase2Step, containsTL, getBBox, areaOf, pushChild, gapX, gapY,
      List.foldl, List.enum, List.find?]
  have h3 : w2S.info.type ≠ "frame" := by decide
  exact ⟨⟨h1, h2, h3⟩,
    claim_C2_autofit_nonframe_children_fit _ _ "b" _ _ h1 h2 h3⟩

/-- Concrete board for the C2 counterexample: frame `B` has a smaller
area than frame `A` but contains `A`'s top-left corner; a sticky `S`
inside `A` forces `A` to grow after `B` has already been processed. -/
def cx2Board : List BoardStateObject :=
  [{ id := "B", type := "frame", x := -10, y := -10, width := 50, height := 50 },
   { id := "A", type := "frame", x := 0, y := 0, width := 100, height := 200 },
   { id := "S", type := "sticky", x := 50, y := 150, width := 200, height := 200 }]

def cx2A : ObjEntry :=
  ⟨"A", { type := "frame", x := 0, y := 0, width := 100, height := 200 }⟩

/-- `A`'s final shape after the pass, for stating the violation. -/
def cx2A280 : ObjEntry :=
  ⟨"A", { type := "frame", x := 0, y := 0, width := 280, height := 380 }⟩

def cx2B : ObjEntry :=
  ⟨"B", { type := "frame", x := -10, y := -10, width := 50, height := 50 }⟩

def cx2S : ObjEntry :=
  ⟨"S", { type := "sticky", x := 50, y := 150, width := 200, height := 200 }⟩

/-- `B`'s final shape after the pass. -/
def cx2B160 : ObjInfo :=
  { type := "frame", x := -30, y := -70, width := 160, height := 300 }

/-- The frame-resize write appended for `B`. -/
def cx2WB : PendingWrite :=
  { type := .update, path := "boards/b/objects/B"
    data := some [("x", .num (-30)), ("y", .num (-70)),
                  ("width", .num 160), ("height", .num 300)] }

/-- The frame-resize write appended for `A`. -/
def cx2WA : PendingWrite :=
  { type := .update, path := "boards/b/objects/A"
    data := some [("x", .num 0), ("y", .num 0),
                  ("width", .num 280), ("height", .num 380)] }

/-- Claim C2, counterexample: frame `A` is assigned to frame `B` as a
child by the two-phase algorithm, yet after the auto-fit pass `A`'s final
bounding box (right edge `280`) extends far beyond `B`'s final rectangle
(right edge `130`) — containment fails with the padding subtracted and
even with the padding added.  The expansion loop processes frames in
increasing *original* area order, so `B` (area 2500) is expanded around
`A`'s old bbox before `A` (area 20000) itself grows around its sticky. -/
theorem claim_C2_counterexample :
    cx2A ∈ (alGet (assignChildren (framesOf (buildMaps cx2Board []).1)
      (potentialChildrenOf (buildMaps cx2Board []).1)) "B").getD [] ∧
    alGet (fitFinalState [] cx2Board "b").objMap "B" = some cx2B160 ∧
    alGet (fitFinalState [] cx2Board "b").objMap "A" = some cx2A280.info ∧
    ¬ ((getBBox cx2A280.info).right ≤
        cx2B160.x + cx2B160.width - PADDING_SIDE) ∧
    ¬ ((getBBox cx2A280.info).right ≤
        cx2B160.x + cx2B160.width + PADDING_SIDE) := by
  have e1 : buildMaps cx2Board [] =
      ([("B", cx2B.info), ("A", cx2A.info), ("S", cx2S.info)], []) := by
    norm_num [cx2Board, cx2B, cx2A, cx2S, buildMaps, objMapOfState,
      applyWriteToMaps, alSet, List.foldl, List.enum]
    simp
  have e2 : framesOf [("B", cx2B.info), ("A", cx2A.info), ("S", cx2S.info)]
      = [cx2B, cx2A] := by
    norm_num [framesOf, cx2B, cx2A, cx2S]
    simp
  have e3 : potentialChildrenOf
      [("B", cx2B.info), ("A", cx2A.info), ("S", cx2S.info)]
      = [cx2B, cx2A, cx2S] := by
    norm_num [potentialChildrenOf, cx2B, cx2A, cx2S]
    simp
  have e4 : assignChildren [cx2B, cx2A] [cx2B, cx2A, cx2S]
      = [("B", [cx2A]), ("A", [cx2S])] := by
    norm_num [assignChildren, phase1Assign, phase2Assign, phase1Scan,
      phase1Step, phase2Scan, phase2Step, containsTL, getBBox, areaOf,
      pushChild, gapX, gapY, cx2B, cx2A, cx2S, List.foldl]
    simp
    norm_num
    simp
  have e5 : sortFrames [cx2B, cx2A] = [cx2B, cx2A] := by
    norm_num [sortFrames, List.mergeSort, areaOf, cx2B, cx2A]
  have e6 : expandStep "b" [("B", [cx2A]), ("A", [cx2S])]
      { objMap := [("B", cx2B.info), ("A", cx2A.info), ("S", cx2S.info)]
        writes := [], writeIdx := [] } cx2B =
      { objMap := [("B", cx2B160), ("A", cx2A.info), ("S", cx2S.info)]
        writes := [cx2WB], writeIdx := [("B", 0)] } := by
    norm_num [expandStep, applyFrameWrite, foldNeeds, foldNeedsStep,
      bbLatest, expandedRect, alGet, alSet, setRectFields, setField,
      PADDING_SIDE, PADDING_TOP, PADDING_BOTTOM, min_def, max_def,
      getBBox, cx2B, cx2A, cx2S, cx2B160, cx2WB, List.foldl, List.find?]
    simp
    norm_num
  have e7 : expandStep "b" [("B", [cx2A]), ("A", [cx2S])]
      { objMap := [("B", cx2B160), ("A", cx2A.info), ("S", cx2S.info)]
        writes := [cx2WB], writeIdx := [("B", 0)] } cx2A =
      { objMap := [("B", cx2B160), ("A", cx2A280.info), ("S", cx2S.info)]
        writes := [cx2WB, cx2WA], writeIdx := [("B", 0), ("A", 1)] } := by
    norm_num [expandStep, applyFrameWrite, foldNeeds, foldNeedsStep,
      bbLatest, expandedRect, alGet, alSet, setRectFields, setField,
      PADDING_SIDE, PADDING_TOP, PADDING_BOTTOM, min_def, max_def,
      getBBox, cx2B, cx2A, cx2A280, cx2S, cx2B160, cx2WB, cx2WA,
      List.foldl, List.find?]
    simp
    norm_num
  have hfinal : fitFinalState [] cx2Board "b" =
      { objMap := [("B", cx2B160), ("A", cx2A280.info), ("S", cx2S.info)]
        writes := [cx2WB, cx2WA], writeIdx := [("B", 0), ("A", 1)] } := by
    show expandFrames "b"
        (assignChildren (framesOf (buildMaps cx2Board []).1)
          (potentialChildrenOf (buildMaps cx2Board []).1))
        (sortFrames (framesOf (buildMaps cx2Board []).1))
        { objMap := (buildMaps cx2Board []).1, writes := []
          writeIdx := (buildMaps cx2Board []).2 } = _
    rw [e1]
    dsimp only
    rw [e2, e3, e4, e5, expandFrames_cons, e6, expandFrames_cons, e7]
    rfl
  refine ⟨?_, ?_, ?_, ?_, ?_⟩
  · rw [e1]
    dsimp only
    rw [e2, e3, e4]
    norm_num [alGet, List.find?]
  · rw [hfinal]
    norm_num [alGet, List.find?, cx2B160]
  · rw [hfinal]
    norm_num [alGet, List.find?, cx2A280]
    simp
  · norm_num [cx2A280, cx2B160, getBBox, PADDING_SIDE]
    simp
    norm_num
  · norm_num [cx2A280, cx2B160, getBBox, PADDING_SIDE]
    simp
    norm_num

/-! ### Client mutation API and the store's write semantics -/

/-- Field lookup through a cons cell. -/
theorem hasField_cons (a : String) (b : FieldValue) (rest : Fields)
    (k' : String) :
    hasField ((a, b) :: rest) k' = if a = k' then true else hasField rest k' := by
  by_cases h : a = k'
  · simp [hasField, getField, List.find?, h]
  · have hb : (a == k') = false := beq_eq_false_iff_ne.mpr h
    simp [hasField, getField, List.find?, hb, h]

theorem setField_cons (a : String) (b : FieldValue) (rest : Fields)
    (k : String) (v : FieldValue) :
    setField ((a, b) :: rest) k v =
      if a = k then (k, v) :: rest else (a, b) :: setField rest k v := by
  by_cases h : a = k
  · simp [setField, h]
  · have hb : (a == k) = false := beq_eq_false_iff_ne.mpr h
    simp [setField, hb, h]

theorem hasField_setField_self (f : Fields) (k : String) (v : FieldValue) :
    hasField (setField f k v) k = true := by
  induction f with
  | nil =>
    rw [show setField [] k v = [(k, v)] from rfl, hasField_cons, if_pos rfl]
  | cons p rest ih =>
    obtain ⟨a, b⟩ := p
    rw [setField_cons]
    by_cases h : a = k
    · rw [if_pos h, hasField_cons, if_pos rfl]
    · rw [if_neg h, hasField_cons, if_neg h]
      exact ih

theorem hasField_setField_of_hasField (f : Fields) (k k' : String)
    (v : FieldValue) (h : hasField f k' = true) :
    hasField (setField f k v) k' = true := by
  induction f with
  | nil => simp [hasField, getField] at h
  | cons p rest ih =>
    obtain ⟨a, b⟩ := p
    rw [setField_cons]
    by_cases hk : a = k
    · rw [if_pos hk, hasField_cons]
      by_cases hk' : k = k'
      · rw [if_pos hk']
      · rw [if_neg hk']
        rw [hasField_cons, if_neg (fun he => hk' (hk ▸ he))] at h
        exact h
    · rw [if_neg hk, hasField_cons]
      by_cases hk' : a = k'
      · rw [if_pos hk']
      · rw [if_neg hk']
        rw [hasField_cons, if_neg hk'] at h
        exact ih h

/-- `addObject` from `useFirestore.ts`: the stored field set is the
object's data plus `lastEditedBy` and a server-stamped `updatedAt`. -/
def clientAddObjectFields (data : Fields) (userId : String) : Fields :=
  setField (setField data "lastEditedBy" (.str userId))
    "updatedAt" .serverTimestamp

/-- `updateObject` from `useFirestore.ts`: the update's field set is the
partial update plus `lastEditedBy` and a server-stamped `updatedAt`. -/
def clientUpdateObjectFields (updates : Fields) (userId : String) : Fields :=
  setField (setField updates "lastEditedBy" (.str userId))
    "updatedAt" .serverTimestamp

/-- Claim C3, amended: the client mutation API (`addObject`,
`updateObject`) and every write produced by an agent tool call stamp
`updatedAt` with the server timestamp; the agent's auto-fit pass,
however, enqueues fresh frame-resize writes that carry only
`x, y, width, height` and no `updatedAt` (see the counterexample). -/
theorem claim_C3_updatedAt_stamping :
    (∀ (data : Fields) (userId : String),
      hasField (clientAddObjectFields data userId) "updatedAt" = true) ∧
    (∀ (updates : Fields) (userId : String),
      hasField (clientUpdateObjectFields updates userId) "updatedAt" = true) ∧
    (∀ (tc : ToolCall) (boardId userId : String)
        (boardState : List BoardStateObject) (createdIds : List String)
        (freshId : String) (w : PendingWrite),
      (processToolCall tc boardId userId boardState createdIds
        freshId).write = some w → w.type ≠ .delete →
      hasField (w.data.getD []) "updatedAt" = true) := by
  refine ⟨?_, ?_, ?_⟩
  · intro data userId
    exact hasField_setField_self _ _ _
  · intro updates userId
    exact hasField_setField_self _ _ _
  · intro tc boardId userId boardState createdIds freshId w h hdel
    cases tc with
    | createStickyNote text x y color =>
      simp only [processToolCall, Option.some.injEq] at h
      subst h
      rfl
    | createText text x y color fontSize =>
      simp only [processToolCall, Option.some.injEq] at h
      subst h
      rfl
    | createShape shapeType x y width height color text =>
      simp only [processToolCall, Option.some.injEq] at h
      subst h
      show hasField (_ : Fields) "updatedAt" = true
      have hbase : hasField
          [("type", FieldValue.str shapeType), ("x", .num x), ("y", .num y),
           ("width", .num width), ("height", .num height),
           ("rotation", .num 0), ("text", .str (text.getD "")),
           ("color", .str color), ("zIndex", .num 0),
           ("lastEditedBy", .str userId), ("updatedAt", .serverTimestamp)]
          "updatedAt" = true := by rfl
      by_cases hl : shapeType = "line" <;> by_cases hc : shapeType = "circle" <;>
        simp only [hl, hc, if_true, if_false, Option.getD] <;>
        first
          | exact hasField_setField_of_hasField _ _ _ _
              (hasField_setField_of_hasField _ _ _ _ hbase)
          | exact hasField_setField_of_hasField _ _ _ _ hbase
          | exact hbase
    | createFrame title x y width height =>
      simp only [processToolCall, Option.some.injEq] at h
      subst h
      rfl
    | createConnector fromId toId style =>
      by_cases h1 : isKnownId boardState createdIds fromId = true
      · by_cases h2 : isKnownId boardState createdIds toId = true
        · simp only [processToolCall, h1, h2, Bool.not_true,
            Bool.false_eq_true, if_false, Option.some.injEq] at h
          subst h
          rfl
        · rw [Bool.not_eq_true] at h2
          simp [processToolCall, h1, h2] at h
      · rw [Bool.not_eq_true] at h1
        simp [processToolCall, h1] at h
    | moveObject oid x y =>
      by_cases h1 : isKnownId boardState createdIds oid = true
      · simp only [processToolCall, h1, Bool.not_true, Bool.false_eq_true,
          if_false, Option.some.injEq] at h
        subst h
        rfl
      · rw [Bool.not_eq_true] at h1
        simp [processToolCall, h1] at h
    | resizeObject oid width height =>
      by_cases h1 : isKnownId boardState createdIds oid = true
      · simp only [processToolCall, h1, Bool.not_true, Bool.false_eq_true,
          if_false, Option.some.injEq] at h
        subst h
        rfl
      · rw [Bool.not_eq_true] at h1
        simp [processToolCall, h1] at h
    | updateText oid newText =>
      by_cases h1 : isKnownId boardState createdIds oid = true
      · simp only [processToolCall, h1, Bool.not_true, Bool.false_eq_true,
          if_false, Option.some.injEq] at h
        subst h
        rfl
      · rw [Bool.not_eq_true] at h1
        simp [processToolCall, h1] at h
    | changeColor oid color =>
      by_cases h1 : isKnownId boardState createdIds oid = true
      · simp only [processToolCall, h1, Bool.not_true, Bool.false_eq_true,
          if_false, Option.some.injEq] at h
        subst h
        rfl
      · rw [Bool.not_eq_true] at h1
        simp [processToolCall, h1] at h
    | updateConnectorStyle oid lineStyle arrowHead =>
      by_cases h1 : isKnownId boardState createdIds oid = true
      · simp only [processToolCall, h1, Bool.not_true, Bool.false_eq_true,
          if_false, Option.some.injEq] at h
        subst h
        rfl
      · rw [Bool.not_eq_true] at h1
        simp [processToolCall, h1] at h
    | deleteObject oid =>
      by_cases h1 : isKnownId boardState createdIds oid = true
      · simp only [processToolCall, h1, Bool.not_true, Bool.false_eq_true,
          if_false, Option.some.injEq] at h
        subst h
        exact absurd rfl hdel
      · rw [Bool.not_eq_true] at h1
        simp [processToolCall, h1] at h
    | getBoardState =>
      simp [processToolCall] at h

def cx3Board : List BoardStateObject :=
  [{ id := "F", type := "frame", x := 0, y := 0, width := 100, height := 100 },
   { id := "S", type := "sticky", x := 10, y := 80, width := 200, height := 200 }]

def cx3F : ObjEntry :=
  ⟨"F", { type := "frame", x := 0, y := 0, width := 100, height := 100 }⟩

def cx3S : ObjEntry :=
  ⟨"S", { type := "sticky", x := 10, y := 80, width := 200, height := 200 }⟩

/-- `F`'s final shape after the pass. -/
def cx3Ffin : ObjInfo :=
  { type := "frame", x := -20, y := 0, width := 260, height := 310 }

/-- The frame-resize write the auto-fit pass appends for `F`. -/
def cx3FrameW : PendingWrite :=
  { type := .update, path := "boards/b/objects/F"
    data := some [("x", .num (-20)), ("y", .num 0),
                  ("width", .num 260), ("height", .num 310)] }

/-- Claim C3, counterexample: on a board with frame `F (0,0,100,100)` and
sticky `S (10,80,200,200)` the auto-fit pass appends a frame-resize write
whose field set is exactly `x, y, width, height` — no `updatedAt` (and no
`lastEditedBy`), contradicting "every write stamps `updatedAt = now()`". -/
theorem claim_C3_counterexample :
    fitFramesToContent [] cx3Board "b" = [cx3FrameW] ∧
    hasField (cx3FrameW.data.getD []) "updatedAt" = false := by
  have e1 : buildMaps cx3Board [] =
      ([("F", cx3F.info), ("S", cx3S.info)], []) := by
    norm_num [cx3Board, cx3F, cx3S, buildMaps, objMapOfState,
      applyWriteToMaps, alSet, List.foldl, List.enum]
    simp
  have e2 : framesOf [("F", cx3F.info), ("S", cx3S.info)] = [cx3F] := by
    norm_num [framesOf, cx3F, cx3S]
    simp
  have e3 : potentialChildrenOf [("F", cx3F.info), ("S", cx3S.info)]
      = [cx3F, cx3S] := by
    norm_num [potentialChildrenOf, cx3F, cx3S]
    simp
  have e4 : assignChildren [cx3F] [cx3F, cx3S] = [("F", [cx3S])] := by
    norm_num [assignChildren, phase1Assign, phase2Assign, phase1Scan,
      phase1Step, phase2Scan, phase2Step, containsTL, getBBox, areaOf,
      pushChild, gapX, gapY, cx3F, cx3S, List.foldl]
    simp
    norm_num
    simp
  have e5 : sortFrames [cx3F] = [cx3F] := by
    norm_num [sortFrames, List.mergeSort]
  have e6 : expandStep "b" [("F", [cx3S])]
      { objMap := [("F", cx3F.info), ("S", cx3S.info)]
        writes := [], writeIdx := [] } cx3F =
      { objMap := [("F", cx3Ffin), ("S", cx3S.info)]
        writes := [cx3FrameW], writeIdx := [("F", 0)] } := by
    norm_num [expandStep, applyFrameWrite, foldNeeds, foldNeedsStep,
      bbLatest, expandedRect, alGet, alSet, setRectFields, setField,
      PADDING_SIDE, PADDING_TOP, PADDING_BOTTOM, min_def, max_def,
      getBBox, cx3F, cx3S, cx3Ffin, cx3FrameW, List.foldl, List.find?]
    simp
    norm_num
  have hfinal : fitFinalState [] cx3Board "b" =
      { objMap := [("F", cx3Ffin), ("S", cx3S.info)]
        writes := [cx3FrameW], writeIdx := [("F", 0)] } := by
    show expandFrames "b"
        (assignChildren (framesOf (buildMaps cx3Board []).1)
          (potentialChildrenOf (buildMaps cx3Board []).1))
        (sortFrames (framesOf (buildMaps cx3Board []).1))
        { objMap := (buildMaps cx3Board []).1, writes := []
          writeIdx := (buildMaps cx3Board []).2 } = _
    rw [e1]
    dsimp only
    rw [e2, e3, e4, e5, expandFrames_cons, e6]
    rfl
  constructor
  · show (if (framesOf (buildMaps cx3Board []).1).isEmpty then []
      else (fitFinalState [] cx3Board "b").writes) = [cx3FrameW]
    rw [e1]
    dsimp only
    rw [e2, hfinal]
    rfl
  · rfl

/-- Claim C3 witness: a `moveObject` tool-call write on a known id
carries the server-stamped `updatedAt`. -/
def w3Board : List BoardStateObject :=
  [{ id := "X", type := "sticky", x := 0, y := 0, width := 200, height := 200 }]

def w3MoveW : PendingWrite :=
  { type := .update, path := "boards/b/objects/X"
    data := some [("x", .num 1), ("y", .num 2),
                  ("lastEditedBy", .str "u"), ("updatedAt", .serverTimestamp)] }

theorem claim_C3_updatedAt_witness :
    ((processToolCall (.moveObject "X" 1 2) "b" "u" w3Board [] "f").write
        = some w3MoveW ∧ w3MoveW.type ≠ .delete) ∧
    hasField (w3MoveW.data.getD []) "updatedAt" = true := by
  have h1 : (processToolCall (.moveObject "X" 1 2) "b" "u" w3Board []
      "f").write = some w3MoveW := by rfl
  have h2 : w3MoveW.type ≠ .delete := by decide
  exact ⟨⟨h1, h2⟩,
    claim_C3_updatedAt_stamping.2.2 _ _ _ _ _ _ _ h1 h2⟩

/-- Overlaying new fields on an existing document (`merge` semantics). -/
def mergeFields (oldF newF : Fields) : Fields :=
  newF.foldl (fun acc p => setField acc p.1 p.2) oldF

/-- Firestore client `updateDoc` (the primitive `useFirestore.ts`'s
`updateObject` calls): it FAILS with `NOT_FOUND` when the target
document does not exist.  Modelled from the `firebase/firestore`
interface the client imports. -/
def updateDoc (col : List (String × Fields)) (id : String)
    (fields : Fields) : Except String (List (String × Fields)) :=
  match alGet col id with
  | none => .error "NOT_FOUND: no document to update"
  | some old => .ok (alSet col id (mergeFields old fields))

/-- Firestore `set` with `{merge: true}` (the primitive the agent's
batch uses for its `update` writes): updates an existing document, or
creates it when absent — it never fails. -/
def setDocMerge (col : List (String × Fields)) (id : String)
    (fields : Fields) : List (String × Fields) :=
  match alGet col id with
  | none => alSet col id fields
  | some old => alSet col id (mergeFields old fields)

/-- The client's `updateObject(boardId, userId, id, partial)`. -/
def updateObjectClient (col : List (String × Fields)) (userId id : String)
    (updates : Fields) : Except String (List (String × Fields)) :=
  updateDoc col id (clientUpdateObjectFields updates userId)

/-- One write of the agent's batch commit (`runBoardAgent`): `set` writes
plainly, `update` writes via set-with-merge, `delete` deletes. -/
def applyPendingWrite (col : List (String × Fields)) (w : PendingWrite) :
    List (String × Fields) :=
  match w.type with
  | .set => alSet col (pathId w.path) (w.data.getD [])
  | .update => setDocMerge col (pathId w.path) (w.data.getD [])
  | .delete => alDel col (pathId w.path)

/-- The atomic batch commit: all writes applied in order. -/
def commitBatch (col : List (String × Fields)) (ws : List PendingWrite) :
    List (String × Fields) :=
  ws.foldl applyPendingWrite col

/-- Claim C7, counterexample: the client-side `updateObject` on a missing
document FAILS (it calls `updateDoc`, which rejects with `NOT_FOUND`),
so "succeeds even when the target document does not exist" does not hold
on every update path. -/
theorem claim_C7_counterexample :
    (updateObjectClient [] "u" "ghost" []).isOk = false := rfl

/-- Claim C7, amended: the *agent's* batch modification writes succeed
even when the target document is missing — a pending `update` write goes
through set-with-merge and creates the document — while the *client's*
`updateObject` uses a plain update and fails with `NOT_FOUND` when the
document is absent. -/
theorem claim_C7_update_missing_doc (col : List (String × Fields))
    (id : String) (updates : Fields) (userId : String)
    (h : alGet col id = none) :
    (updateObjectClient col userId id updates) =
      .error "NOT_FOUND: no document to update" ∧
    (∀ w : PendingWrite, w.type = .update → pathId w.path = id →
      (alGet (applyPendingWrite col w) id).isSome = true) := by
  constructor
  · rw [updateObjectClient, updateDoc, h]
  · intro w hw hp
    simp only [applyPendingWrite, hw, setDocMerge, hp, h]
    rw [alGet_alSet_self]
    rfl

/-- Claim C7 witness: updating the missing document `"ghost"` in an empty
collection errors on the client path and succeeds (creating the
document) on the agent's batch path. -/
theorem claim_C7_update_missing_doc_witness :
    alGet ([] : List (String × Fields)) "ghost" = none ∧
    ((updateObjectClient [] "u" "ghost" []) =
        .error "NOT_FOUND: no document to update" ∧
     (∀ w : PendingWrite, w.type = .update → pathId w.path = "ghost" →
       (alGet (applyPendingWrite [] w) "ghost").isSome = true)) :=
  ⟨rfl, claim_C7_update_missing_doc [] "ghost" [] "u" rfl⟩

/-! ### Presence tracker (`usePresence`) -/

/-- `STALE_CURSOR_MS` from the presence hook. -/
def STALE_CURSOR_MS : ℤ := 60000

/-- `THROTTLE_MS` from the presence hook. -/
def THROTTLE_MS : ℤ := 60

/-- The spec's display-staleness constant (`STALE = 30 s`), used only to
state the original claim. -/
def SPEC_STALE_MS : ℤ := 30000

/-- A raw presence document as delivered by the snapshot (every field may
be missing). -/
structure PresenceDoc where
  id : String
  displayName : Option String := none
  cursor : Option (ℚ × ℚ) := none
  cursorColor : Option String := none
  lastSeen : Option ℤ := none
  deriving DecidableEq

structure UserPresence where
  userId : String
  displayName : String
  cursor : ℚ × ℚ
  cursorColor : String
  lastSeen : Option ℤ
  deriving DecidableEq

/-- The snapshot handler of `usePresence`: map documents to
`UserPresence` (with `||`-style defaults) and keep only entries whose
`lastSeen` exists and satisfies `now − lastSeen < STALE_CURSOR_MS`. -/
def usePresenceSnapshot (now : ℤ) (docs : List PresenceDoc) :
    List UserPresence :=
  (docs.map (fun d =>
    { userId := d.id
      displayName := strOr d.displayName "Anonymous"
      cursor := d.cursor.getD (0, 0)
      cursorColor := strOr d.cursorColor "#3b82f6"
      lastSeen := d.lastSeen })).filter
    (fun u => match u.lastSeen with
      | none => false
      | some ls => decide (now - ls < STALE_CURSOR_MS))

/-- `otherUsers`: every rendered user except oneself. -/
def otherUsers (userId : String) (l : List UserPresence) :
    List UserPresence :=
  l.filter (fun u => !(u.userId == userId))

/-- A presence document 40 s old at `now = 100000`. -/
def cx4Doc : PresenceDoc :=
  { id := "u1", displayName := some "Ann", cursor := some (10, 10),
    cursorColor := some "#ef4444", lastSeen := some 60000 }

/-- Claim C4, counterexample: an entry whose `lastSeen` is 40 s old —
stale under the claimed `STALE = 30 s` — is still rendered, because the
code's display filter uses `STALE_CURSOR_MS = 60 000` ms, not 30 s. -/
theorem claim_C4_counterexample :
    (100000 : ℤ) - 60000 > SPEC_STALE_MS ∧
    (usePresenceSnapshot 100000 [cx4Doc]).length = 1 := by
  constructor
  · decide
  · rfl

/-- Claim C4, amended: the display filter drops an entry exactly when its
`lastSeen` is missing or `now − lastSeen ≥ STALE_CURSOR_MS` with
`STALE_CURSOR_MS = 60 s` (not the spec's 30 s): every rendered presence
entry has a `lastSeen` with `now − lastSeen < 60 000` ms, and `otherUsers`
is a subset of the rendered list. -/
theorem claim_C4_stale_filter (now : ℤ) (docs : List PresenceDoc)
    (u : UserPresence) (h : u ∈ usePresenceSnapshot now docs) :
    (∃ ls : ℤ, u.lastSeen = some ls ∧ now - ls < STALE_CURSOR_MS) ∧
    (∀ me : String, u ∈ otherUsers me (usePresenceSnapshot now docs) →
      u ∈ usePresenceSnapshot now docs) := by
  constructor
  · have hp := List.of_mem_filter h
    rcases hls : u.lastSeen with _ | ls
    · rw [hls] at hp
      simp at hp
    · rw [hls] at hp
      simp at hp
      exact ⟨ls, rfl, hp⟩
  · intro me hm
    exact h

/-- A fresh presence document (10 s old at `now = 100000`). -/
def w4Doc : PresenceDoc :=
  { id := "u1", displayName := some "Ann", cursor := some (10, 10),
    cursorColor := some "#ef4444", lastSeen := some 90000 }

/-- The rendered entry for `w4Doc`. -/
def w4User : UserPresence :=
  { userId := "u1", displayName := "Ann", cursor := (10, 10),
    cursorColor := "#ef4444", lastSeen := some 90000 }

/-- Claim C4 witness: a fresh entry (10 s old) is rendered and the
theorem yields its freshness bound. -/
theorem claim_C4_stale_filter_witness :
    w4User ∈ usePresenceSnapshot 100000 [w4Doc] ∧
    ((∃ ls : ℤ, w4User.lastSeen = some ls ∧
        (100000 : ℤ) - ls < STALE_CURSOR_MS) ∧
     (∀ me : String, w4User ∈ otherUsers me (usePresenceSnapshot 100000 [w4Doc]) →
        w4User ∈ usePresenceSnapshot 100000 [w4Doc])) := by
  have h : w4User ∈ usePresenceSnapshot 100000 [w4Doc] := by
    norm_num [usePresenceSnapshot, strOr, STALE_CURSOR_MS, w4Doc, w4User,
      List.filter]
    simp
  exact ⟨h, claim_C4_stale_filter 100000 _ _ h⟩

/-! ### Throttled cursor writes (`updateCursor`) -/

/-- One `updateCursor` call: given the last admitted send time and the
current `Date.now()`, returns the new `lastSentRef` value and whether a
store write was performed.  A call less than `THROTTLE_MS` after the last
admitted one returns early — no write, state unchanged. -/
def updateCursor (lastSent now : ℤ) : ℤ × Bool :=
  if now - lastSent < THROTTLE_MS then (lastSent, false) else (now, true)

/-- The timestamps of the calls that result in a store write, over a
sequence of `updateCursor` calls. -/
def admittedTimes (lastSent : ℤ) : List ℤ → List ℤ
  | [] => []
  | t :: ts =>
    let r := updateCursor lastSent t
    if r.2 then t :: admittedTimes r.1 ts else admittedTimes r.1 ts

/-- Every admitted time is at least `lastSent + THROTTLE_MS`. -/
theorem admittedTimes_lower (ts : List ℤ) :
    ∀ lastSent : ℤ, ∀ a ∈ admittedTimes lastSent ts,
      lastSent + THROTTLE_MS ≤ a := by
  induction ts with
  | nil => intro lastSent a ha; simp [admittedTimes] at ha
  | cons t ts ih =>
    intro lastSent a ha
    rw [admittedTimes] at ha
    by_cases h : t - lastSent < THROTTLE_MS
    · simp only [updateCursor, if_pos h] at ha
      exact ih lastSent a ha
    · simp only [updateCursor, if_neg h] at ha
      rcases List.mem_cons.mp (by simpa using ha) with rfl | ha'
      · linarith [le_of_not_lt h]
      · have := ih t a ha'
        have h2 := le_of_not_lt h
        have hpos : (0 : ℤ) < THROTTLE_MS := by decide
        linarith

/-- Claim C8: the presence tracker admits at most one cursor write per
`THROTTLE_MS = 60` ms — any two calls that both result in a store write
are at least 60 ms apart (pairwise, in order), and a call arriving less
than 60 ms after the last admitted one performs no write and leaves the
throttle state unchanged. -/
theorem claim_C8_cursor_throttle :
    (∀ (lastSent : ℤ) (ts : List ℤ),
      List.Pairwise (fun a b => a + THROTTLE_MS ≤ b)
        (admittedTimes lastSent ts)) ∧
    (∀ (lastSent t : ℤ) (ts : List ℤ), t - lastSent < THROTTLE_MS →
      updateCursor lastSent t = (lastSent, false) ∧
      admittedTimes lastSent (t :: ts) = admittedTimes lastSent ts) := by
  constructor
  · intro lastSent ts
    induction ts generalizing lastSent with
    | nil => exact List.Pairwise.nil
    | cons t ts ih =>
      rw [admittedTimes]
      by_cases h : t - lastSent < THROTTLE_MS
      · simpa only [updateCursor, if_pos h] using ih lastSent
      · simp only [updateCursor, if_neg h, if_pos rfl]
        exact List.pairwise_cons.mpr
          ⟨fun a ha => admittedTimes_lower ts t a ha, ih t⟩
  · intro lastSent t ts h
    refine ⟨by rw [updateCursor, if_pos h], ?_⟩
    rw [admittedTimes]
    simp only [updateCursor, if_pos h]
    rfl

/-- Claim C8 witness: with the throttle state at 100 ms, a call at
130 ms (29 ms early) is dropped and does not change the state. -/
theorem claim_C8_cursor_throttle_witness :
    (130 : ℤ) - 100 < THROTTLE_MS ∧
    (updateCursor 100 130 = (100, false) ∧
     admittedTimes 100 [130, 200] = admittedTimes 100 [200]) :=
  ⟨by decide, claim_C8_cursor_throttle.2 100 130 [200] (by decide)⟩

/-! ### Connector rendering (`ConnectorShape`) -/

/-- The endpoint resolution of `ConnectorShape`: look both endpoint ids
up in the current object list; if either is absent (the id is dangling,
or the connector has no endpoint field), return `none` — the component
renders nothing.  The geometric edge-point computation performed on the
two resolved objects is irrelevant to nullness and is represented by the
resolved pair itself. -/
def ConnectorShape (objects : List BoardStateObject)
    (connector : BoardStateObject) :
    Option (BoardStateObject × BoardStateObject) :=
  let fromObj := objects.find? (fun o => connector.connectedFrom == some o.id)
  let toObj := objects.find? (fun o => connector.connectedTo == some o.id)
  match fromObj, toObj with
  | some a, some b => some (a, b)
  | _, _ => none

/-- Claim C9: a connector is rendered iff both endpoint objects exist:
whenever `connectedFrom` or `connectedTo` does not resolve to an object
in the current object set, `ConnectorShape` returns `null` and the
connector is not rendered. -/
theorem claim_C9_dangling_connector_hidden
    (objects : List BoardStateObject) (connector : BoardStateObject) :
    (ConnectorShape objects connector).isSome = true ↔
      ((∃ i, connector.connectedFrom = some i ∧ ∃ o ∈ objects, o.id = i) ∧
       (∃ j, connector.connectedTo = some j ∧ ∃ o ∈ objects, o.id = j)) := by
  rw [ConnectorShape]
  constructor
  · intro h
    rcases hf : objects.find? (fun o => connector.connectedFrom == some o.id)
      with _ | a
    · rw [hf] at h
      rcases ht : objects.find? (fun o => connector.connectedTo == some o.id)
        with _ | b <;> rw [ht] at h <;> simp at h
    · rcases ht : objects.find? (fun o => connector.connectedTo == some o.id)
        with _ | b
      · rw [hf, ht] at h
        simp at h
      · have hfm := List.find?_some hf
        have hfmem := List.mem_of_find?_eq_some hf
        have htm := List.find?_some ht
        have htmem := List.mem_of_find?_eq_some ht
        rw [beq_iff_eq] at hfm htm
        exact ⟨⟨a.id, hfm, a, hfmem, rfl⟩, ⟨b.id, htm, b, htmem, rfl⟩⟩
  · rintro ⟨⟨i, hfi, o₁, ho₁, hid₁⟩, ⟨j, htj, o₂, ho₂, hid₂⟩⟩
    have h₁ : (objects.find?
        (fun o => connector.connectedFrom == some o.id)).isSome = true := by
      rw [List.find?_isSome]
      exact ⟨o₁, ho₁, by rw [hfi, hid₁]; exact beq_self_eq_true _⟩
    have h₂ : (objects.find?
        (fun o => connector.connectedTo == some o.id)).isSome = true := by
      rw [List.find?_isSome]
      exact ⟨o₂, ho₂, by rw [htj, hid₂]; exact beq_self_eq_true _⟩
    rcases Option.isSome_iff_exists.mp h₁ with ⟨a, ha⟩
    rcases Option.isSome_iff_exists.mp h₂ with ⟨b, hb⟩
    rw [ha, hb]
    rfl
